/-
  Verification of the character_creator configuration-resolution core.

  Shallow embedding of the TypeScript sources:
    - formula-evaluator.ts        (evaluateFormula)
    - config-sync.ts              (syncAttributesWithConfig, syncCombatStatsWithConfig,
                                   syncCharacterInfoWithConfig, syncInventorySlotsWithConfig)
    - config-loader utilities     (validateAttributeValue)
    - config-manager              (validateEnumReferences, validateInventoryEnumReferences,
                                   validateLevelClassEnumReferences, validateGlobalIdUniqueness,
                                   _loadAllConfigs, loadAllConfigs/reset state machine)
    - zod schema validators       (modelled as Bool-valued validity predicates)
    - persistence.ts              (deserializeCharacter)

  Modelling conventions:
    - JavaScript objects / records are association lists with JS assignment
      semantics (`objSet`: overwrite in place or append) and JS property read
      (`alookup`: first match).
    - JavaScript numbers are modelled exactly: finite values are rationals and
      the special values Infinity, -Infinity and NaN are explicit constructors
      (`JSNum`).  IEEE-754 rounding is not modelled; all arithmetic appearing
      in the verified claims is on small integers, where double arithmetic is
      exact.  Signed zero is not distinguished.
    - Thrown exceptions are modelled with Option/Except (none = a throw that
      propagates to the caller).
-/
import Mathlib

namespace CC

/-! ## Association lists with JavaScript object semantics -/

/-- JS property read `o[k]`: first binding wins (bindings are kept unique). -/
def alookup {κ α : Type} [DecidableEq κ] : List (κ × α) → κ → Option α
  | [], _ => none
  | (k, v) :: rest, key => if k = key then some v else alookup rest key

/-- JS property write `o[k] = v`: overwrite in place, else append (JS keeps the
original key position on overwrite and appends new keys at the end). -/
def objSet {κ α : Type} [DecidableEq κ] : List (κ × α) → κ → α → List (κ × α)
  | [], key, val => [(key, val)]
  | (k, v) :: rest, key, val =>
    if k = key then (k, val) :: rest else (k, v) :: objSet rest key val

/-! ## JavaScript numbers -/

/-- A JavaScript number as the formula evaluator's arithmetic produces it: a
finite value represented as an exact integer fraction (`den` is kept
positive by every operation), or Infinity, -Infinity, NaN.  IEEE-754 rounding
is not modelled (exact for the integer arithmetic of the claims); signed zero
is not distinguished. -/
inductive JSVal : Type where
  | fin (num : ℤ) (den : ℤ)
  | posInf
  | negInf
  | nan
deriving DecidableEq, Repr

namespace JSVal

def isNaN : JSVal → Bool
  | nan => true
  | _ => false

/-- JS unary minus. -/
def neg : JSVal → JSVal
  | fin n d => fin (-n) d
  | posInf => negInf
  | negInf => posInf
  | nan => nan

/-- JS `+` on numbers. -/
def add : JSVal → JSVal → JSVal
  | fin n₁ d₁, fin n₂ d₂ => fin (n₁ * d₂ + n₂ * d₁) (d₁ * d₂)
  | fin _ _, posInf => posInf
  | fin _ _, negInf => negInf
  | posInf, fin _ _ => posInf
  | negInf, fin _ _ => negInf
  | posInf, posInf => posInf
  | negInf, negInf => negInf
  | posInf, negInf => nan
  | negInf, posInf => nan
  | _, _ => nan

/-- JS `-`. -/
def sub (a b : JSVal) : JSVal := add a (neg b)

/-- JS `*`. -/
def mul : JSVal → JSVal → JSVal
  | fin n₁ d₁, fin n₂ d₂ => fin (n₁ * n₂) (d₁ * d₂)
  | fin n _, posInf => if n = 0 then nan else if 0 < n then posInf else negInf
  | fin n _, negInf => if n = 0 then nan else if 0 < n then negInf else posInf
  | posInf, fin n _ => if n = 0 then nan else if 0 < n then posInf else negInf
  | negInf, fin n _ => if n = 0 then nan else if 0 < n then negInf else posInf
  | posInf, posInf => posInf
  | negInf, negInf => posInf
  | posInf, negInf => negInf
  | negInf, posInf => negInf
  | _, _ => nan

/-- JS `/`: division by zero yields ±Infinity (NaN for 0/0), it does not
throw. -/
def div : JSVal → JSVal → JSVal
  | fin n₁ d₁, fin n₂ d₂ =>
    if n₂ = 0 then (if n₁ = 0 then nan else if 0 < n₁ then posInf else negInf)
    else
      let n := n₁ * d₂
      let d := d₁ * n₂
      if d < 0 then fin (-n) (-d) else fin n d
  | fin _ _, posInf => fin 0 1
  | fin _ _, negInf => fin 0 1
  | posInf, fin n _ => if 0 ≤ n then posInf else negInf
  | negInf, fin n _ => if 0 ≤ n then negInf else posInf
  | _, _ => nan

end JSVal

/-- The value `evaluateFormula` returns.  After the `isNaN` guard the source
applies `Math.floor` and `Math.max(0, _)`, so a finite result is always an
integer; the non-finite values pass through those functions unchanged
(`Math.floor(Infinity) = Infinity`, `Math.max(0, Infinity) = Infinity`,
`Math.max(0, -Infinity) = 0`). -/
inductive JSNum : Type where
  | num (n : ℤ)
  | posInf
  | negInf
  | nan
deriving DecidableEq, Repr

/-- `Math.floor` on an evaluation result (`Int.fdiv` is floor division and
`den` is positive). -/
def jsFloor : JSVal → JSNum
  | JSVal.fin n d => JSNum.num (n.fdiv d)
  | JSVal.posInf => JSNum.posInf
  | JSVal.negInf => JSNum.negInf
  | JSVal.nan => JSNum.nan

/-- `Math.max(0, x)`. -/
def jsMax0 : JSNum → JSNum
  | JSNum.num n => JSNum.num (max 0 n)
  | JSNum.posInf => JSNum.posInf
  | JSNum.negInf => JSNum.num 0
  | JSNum.nan => JSNum.nan

/-! ## Formula evaluator (formula-evaluator.ts, `evaluateFormula`)

The TS function substitutes attribute values into the formula string with a
word-boundary regex, checks the result against the character whitelist
`^[0-9+\-*\/().\s]+$`, evaluates it as a JavaScript expression with
`Function(...)`, and post-processes with `isNaN` / `Math.floor` /
`Math.max(0, _)`.  The JS expression evaluation is embedded as an arithmetic
tokenizer and recursive-descent parser; recursion is bounded by an explicit
fuel argument that is always sufficient for the actual input. -/

/-- Arithmetic token of the substituted expression. -/
inductive Tok : Type where
  | num (v : JSVal)
  | plus
  | minus
  | star
  | slash
  | lparen
  | rparen
deriving DecidableEq, Repr

/-- Numeric value of a digit string with an optional single decimal point
(exact fraction; IEEE rounding not modelled). -/
def digitsToVal (intPart fracPart : List Char) : JSVal :=
  let iv : ℕ := intPart.foldl (fun n c => 10 * n + (c.toNat - '0'.toNat)) 0
  let fv : ℕ := fracPart.foldl (fun n c => 10 * n + (c.toNat - '0'.toNat)) 0
  JSVal.fin (iv * 10 ^ fracPart.length + fv) (10 ^ fracPart.length)

/-- Tokenizer.  `none` models a SyntaxError thrown by `Function` (the JS lexer
reads adjacent `--`/`++` as increment/decrement operators, which are illegal
on literals, and rejects a lone `.`). -/
def tokenize : ℕ → List Char → Option (List Tok)
  | 0, _ => none
  | _ + 1, [] => some []
  | fuel + 1, c :: cs =>
    if c.isWhitespace then tokenize fuel cs
    else if c = '+' then
      match cs with
      | '+' :: _ => none
      | _ => (tokenize fuel cs).map (Tok.plus :: ·)
    else if c = '-' then
      match cs with
      | '-' :: _ => none
      | _ => (tokenize fuel cs).map (Tok.minus :: ·)
    else if c = '*' then (tokenize fuel cs).map (Tok.star :: ·)
    else if c = '/' then (tokenize fuel cs).map (Tok.slash :: ·)
    else if c = '(' then (tokenize fuel cs).map (Tok.lparen :: ·)
    else if c = ')' then (tokenize fuel cs).map (Tok.rparen :: ·)
    else if c.isDigit ∨ c = '.' then
      let intPart := (c :: cs).takeWhile Char.isDigit
      let rest₁ := (c :: cs).drop intPart.length
      match rest₁ with
      | '.' :: rest₂ =>
        let fracPart := rest₂.takeWhile Char.isDigit
        if intPart.length + fracPart.length = 0 then none
        else (tokenize fuel (rest₂.drop fracPart.length)).map
          (Tok.num (digitsToVal intPart fracPart) :: ·)
      | _ =>
        (tokenize fuel rest₁).map (Tok.num (digitsToVal intPart []) :: ·)
    else none

mutual
/-- Additive level: `Mul (('+'|'-') Mul)*`. -/
def parseAdd : ℕ → List Tok → Option (JSVal × List Tok)
  | 0, _ => none
  | fuel + 1, ts => do
    let (a, ts₁) ← parseMul fuel ts
    parseAddLoop fuel a ts₁

def parseAddLoop : ℕ → JSVal → List Tok → Option (JSVal × List Tok)
  | 0, _, _ => none
  | fuel + 1, a, Tok.plus :: ts => do
    let (b, ts₁) ← parseMul fuel ts
    parseAddLoop fuel (JSVal.add a b) ts₁
  | fuel + 1, a, Tok.minus :: ts => do
    let (b, ts₁) ← parseMul fuel ts
    parseAddLoop fuel (JSVal.sub a b) ts₁
  | _ + 1, a, ts => some (a, ts)

/-- Multiplicative level: `Unary (('*'|'/') Unary)*`. -/
def parseMul : ℕ → List Tok → Option (JSVal × List Tok)
  | 0, _ => none
  | fuel + 1, ts => do
    let (a, ts₁) ← parseUnary fuel ts
    parseMulLoop fuel a ts₁

def parseMulLoop : ℕ → JSVal → List Tok → Option (JSVal × List Tok)
  | 0, _, _ => none
  | fuel + 1, a, Tok.star :: ts => do
    let (b, ts₁) ← parseUnary fuel ts
    parseMulLoop fuel (JSVal.mul a b) ts₁
  | fuel + 1, a, Tok.slash :: ts => do
    let (b, ts₁) ← parseUnary fuel ts
    parseMulLoop fuel (JSVal.div a b) ts₁
  | _ + 1, a, ts => some (a, ts)

/-- Unary level: `('+'|'-') Unary | Primary`. -/
def parseUnary : ℕ → List Tok → Option (JSVal × List Tok)
  | 0, _ => none
  | fuel + 1, Tok.plus :: ts => parseUnary fuel ts
  | fuel + 1, Tok.minus :: ts => do
    let (a, ts₁) ← parseUnary fuel ts
    some (JSVal.neg a, ts₁)
  | fuel + 1, ts => parsePrimary fuel ts

/-- Primary: number literal or parenthesised expression. -/
def parsePrimary : ℕ → List Tok → Option (JSVal × List Tok)
  | 0, _ => none
  | _ + 1, Tok.num v :: ts => some (v, ts)
  | fuel + 1, Tok.lparen :: ts => do
    let (a, ts₁) ← parseAdd fuel ts
    match ts₁ with
    | Tok.rparen :: ts₂ => some (a, ts₂)
    | _ => none
  | _ + 1, _ => none
end

/-- Evaluate the substituted expression string as a JS arithmetic expression;
`none` models a thrown SyntaxError. -/
def evalArith (s : String) : Option JSVal := do
  let fuel := s.length * 2 + 16
  let ts ← tokenize fuel s.data
  let (v, rest) ← parseAdd fuel ts
  match rest with
  | [] => some v
  | _ => none

/-- Word character for the regex `\b` boundary: `[A-Za-z0-9_]`. -/
def isWordChar (c : Char) : Bool := c.isAlphanum || c = '_'

/-- One pass of `expression.replace(new RegExp("\\b" ++ key ++ "\\b", "g"), repl)`
for a key made of word characters (attribute IDs are alphanumeric): replaces
every occurrence of `key` whose neighbours in the original string are not word
characters; scanning continues after each match. -/
def replaceWordGo (key repl : List Char) : ℕ → Option Char → List Char → List Char
  | 0, _, s => s
  | _ + 1, _, [] => []
  | fuel + 1, prev, c :: cs =>
    let prevOk := match prev with
      | none => true
      | some p => !isWordChar p
    if prevOk && key.isPrefixOf (c :: cs) &&
        (match (c :: cs).drop key.length with
         | [] => true
         | nxt :: _ => !isWordChar nxt) then
      repl ++ replaceWordGo key repl fuel key.getLast? ((c :: cs).drop key.length)
    else
      c :: replaceWordGo key repl fuel (some c) cs

/-- Whole-word global replacement; an empty key is left untouched. -/
def replaceWordAll (s key repl : String) : String :=
  if key.data = [] then s
  else ⟨replaceWordGo key.data repl.data (s.length + 1) none s.data⟩

/-- The substitution loop over `Object.entries(attributes)` (insertion order).
Attribute values in the character record are integers; `String(value)` is
their decimal rendering. -/
def substituteVars (formula : String) (attributes : List (String × ℤ)) : String :=
  attributes.foldl (fun expression kv => replaceWordAll expression kv.1 (toString kv.2)) formula

/-- The whitelist `^[0-9+\-*\/().\s]+$` (nonempty, only safe characters). -/
def safeChar (c : Char) : Bool :=
  c.isDigit || c = '+' || c = '-' || c = '*' || c = '/' || c = '(' || c = ')' ||
    c = '.' || c.isWhitespace

def safeExpr (s : String) : Bool := !s.data.isEmpty && s.data.all safeChar

/-- `evaluateFormula` from formula-evaluator.ts.  Returns the JS number the TS
function returns: substitution, whitelist check (fail → 0), JS evaluation
(SyntaxError → 0), `isNaN` check (NaN → 0), `Math.floor`, `Math.max(0, _)`.
Note the result is *not* always finite: `Math.max(0, Math.floor(Infinity))`
is `Infinity`. -/
def evaluateFormula (formula : String) (attributes : List (String × ℤ)) : JSNum :=
  let expression := substituteVars formula attributes
  if !safeExpr expression then JSNum.num 0
  else
    match evalArith expression with
    | none => JSNum.num 0
    | some result =>
      if result.isNaN then JSNum.num 0
      else jsMax0 (jsFloor result)

/-! ## Configuration data model (types/*.types.ts, schemas/*.schema.ts) -/

/-- `type: 'integer' | 'number'` of a numeric schema. -/
inductive NumType : Type where
  | integer
  | number
deriving DecidableEq, Repr

/-- The `maximum` field: a number or the sentinel string `'dynamic'`. -/
inductive NumMax : Type where
  | num (q : ℚ)
  | dyn
deriving DecidableEq, Repr

/-- OpenAPI-style numeric schema (attribute-config.schema.ts,
`NumericSchemaSchema`). -/
structure NumericSchema : Type where
  type : NumType
  minimum : Option ℚ := none
  maximum : Option NumMax := none
  exclusiveMinimum : Option ℚ := none
  exclusiveMaximum : Option ℚ := none
  multipleOf : Option ℚ := none
  default : Option ℚ := none
deriving DecidableEq, Repr

/-- The two `.refine` checks of `NumericSchemaSchema` (field shapes such as
`multipleOf` being positive are structural `z.number().positive()` checks). -/
def numericSchemaValid (s : NumericSchema) : Bool :=
  (match s.minimum, s.maximum with
   | some lo, some (NumMax.num hi) => decide (lo ≤ hi)
   | _, _ => true) &&
  (match s.exclusiveMinimum, s.exclusiveMaximum with
   | some lo, some hi => decide (lo < hi)
   | _, _ => true) &&
  (match s.multipleOf with
   | some p => decide (0 < p)
   | none => true)

/-- Attribute definition (`AttributeConfigSchema`). -/
structure AttributeConfig : Type where
  id : String
  label : String
  description : String
  emoji : Option String := none
  color : Option String := none
  schema : NumericSchema
deriving DecidableEq, Repr

def attributeConfigValid (a : AttributeConfig) : Bool :=
  decide (a.id ≠ "") && decide (a.label ≠ "") && numericSchemaValid a.schema

/-- Attributes document (`AttributesConfigSchema`). -/
structure AttributesConfig : Type where
  title : String
  attributes : List AttributeConfig
deriving DecidableEq, Repr

def attributesConfigValid (cfg : AttributesConfig) : Bool :=
  decide (cfg.title ≠ "") && decide (cfg.attributes ≠ []) &&
    cfg.attributes.all attributeConfigValid &&
    decide (cfg.attributes.map AttributeConfig.id).Nodup

/-- Enumeration value: a bare string or `{name, desc?, data?}`
(enums-config.schema.ts, `EnumValueSchema`; the open `data` payload is
irrelevant to every claim and kept as an opaque option). -/
inductive EnumValue : Type where
  | str (name : String)
  | obj (name : String) (desc : Option String) (dataType : Option String) (dataHp : Option ℚ)
deriving DecidableEq, Repr

def enumValueName : EnumValue → String
  | EnumValue.str n => n
  | EnumValue.obj n _ _ _ => n

/-- Enumeration definition (`EnumDefinitionSchema`). -/
structure EnumDefinition : Type where
  id : String
  label : String
  description : Option String := none
  values : List EnumValue
deriving DecidableEq, Repr

def enumDefinitionValid (e : EnumDefinition) : Bool :=
  decide (e.id ≠ "") && decide (e.label ≠ "") && decide (e.values ≠ []) &&
    e.values.all (fun v => decide (enumValueName v ≠ "")) &&
    decide (e.values.map enumValueName).Nodup

/-- Enums document (`EnumsConfigSchema`; it has no title field). -/
structure EnumsConfig : Type where
  enums : List EnumDefinition
deriving DecidableEq, Repr

def enumsConfigValid (cfg : EnumsConfig) : Bool :=
  decide (cfg.enums ≠ []) && cfg.enums.all enumDefinitionValid &&
    decide (cfg.enums.map EnumDefinition.id).Nodup

/-- Character-info field (character-info-config.schema.ts,
`FieldConfigSchema`): discriminated union of text and enum fields.  The enum
variant's `enumRef` object is flattened to its single `enumId` member. -/
inductive FieldConfig : Type where
  | text (id label : String) (description : Option String) (required : Option Bool)
      (placeholder : Option String) (defaultValue : Option String)
  | enum (id label : String) (description : Option String) (required : Option Bool)
      (placeholder : Option String) (enumId : String) (defaultValue : Option String)
deriving DecidableEq, Repr

def fieldId : FieldConfig → String
  | FieldConfig.text i _ _ _ _ _ => i
  | FieldConfig.enum i _ _ _ _ _ _ => i

def fieldLabel : FieldConfig → String
  | FieldConfig.text _ l _ _ _ _ => l
  | FieldConfig.enum _ l _ _ _ _ _ => l

/-- `field.enumRef.enumId` for enum fields, none for text fields. -/
def fieldEnumId : FieldConfig → Option String
  | FieldConfig.text _ _ _ _ _ _ => none
  | FieldConfig.enum _ _ _ _ _ eid _ => some eid

def fieldConfigValid (f : FieldConfig) : Bool :=
  decide (fieldId f ≠ "") && decide (fieldLabel f ≠ "") &&
    (match fieldEnumId f with
     | some eid => decide (eid ≠ "")
     | none => true)

/-- Character-info document (`CharacterInfoConfigSchema`). -/
structure CharacterInfoConfig : Type where
  title : String
  fields : List FieldConfig
deriving DecidableEq, Repr

def characterInfoConfigValid (cfg : CharacterInfoConfig) : Bool :=
  decide (cfg.title ≠ "") && decide (cfg.fields ≠ []) &&
    cfg.fields.all fieldConfigValid &&
    decide (cfg.fields.map fieldId).Nodup

/-- Combat stat definition (combat-stats-config.schema.ts,
`CombatStatConfigSchema`). -/
structure CombatStatConfig : Type where
  id : String
  label : String
  description : String
  emoji : Option String := none
  schema : NumericSchema
deriving DecidableEq, Repr

def combatStatConfigValid (s : CombatStatConfig) : Bool :=
  decide (s.id ≠ "") && decide (s.label ≠ "") && numericSchemaValid s.schema

/-- A single combat stat or a paired `(current, maximum)` 2-tuple
(`CombatStatOrPairSchema`). -/
inductive CombatStatOrPair : Type where
  | single (s : CombatStatConfig)
  | pair (fst snd : CombatStatConfig)
deriving DecidableEq, Repr

/-- The `.refine` of `PairedCombatStatConfigSchema`: if the first stat has
`maximum: 'dynamic'`, the second stat's maximum must not be `'dynamic'`
(the source compares with `!== 'dynamic'`, so an absent maximum passes). -/
def pairedCombatStatRefine (fst snd : CombatStatConfig) : Bool :=
  if fst.schema.maximum = some NumMax.dyn then
    decide (snd.schema.maximum ≠ some NumMax.dyn)
  else true

/-- Validity of one `PairedCombatStatConfigSchema` tuple: both members parse
as combat stats and the refine passes. -/
def pairedCombatStatConfigValid (fst snd : CombatStatConfig) : Bool :=
  combatStatConfigValid fst && combatStatConfigValid snd && pairedCombatStatRefine fst snd

def combatStatOrPairValid : CombatStatOrPair → Bool
  | CombatStatOrPair.single s => combatStatConfigValid s
  | CombatStatOrPair.pair f s => pairedCombatStatConfigValid f s

/-- IDs of a stat entry with pairs flattened (the in-document uniqueness
refine of `CombatStatsConfigSchema` pushes both member IDs). -/
def statFlatIds : CombatStatOrPair → List String
  | CombatStatOrPair.single s => [s.id]
  | CombatStatOrPair.pair f s => [f.id, s.id]

/-- Combat-stats document (`CombatStatsConfigSchema`). -/
structure CombatStatsConfig : Type where
  title : String
  stats : List CombatStatOrPair
deriving DecidableEq, Repr

def combatStatsConfigValid (cfg : CombatStatsConfig) : Bool :=
  decide (cfg.title ≠ "") && decide (cfg.stats ≠ []) &&
    cfg.stats.all combatStatOrPairValid &&
    decide (cfg.stats.flatMap statFlatIds).Nodup

/-- Inventory tab (inventory-config schema, `InventoryTabConfigSchema`). -/
structure InventoryTabConfig : Type where
  id : String
  label : String
  emoji : String
  description : String
  itemEnumId : String
  slotFormula : String
  emptySlotMessage : Option String := none
deriving DecidableEq, Repr

/-- Inventory document (`InventoryConfigSchema`; `title` is an arbitrary
string, tab IDs carry no in-document uniqueness refine). -/
structure InventoryConfig : Type where
  title : String
  tabs : List InventoryTabConfig
deriving DecidableEq, Repr

def inventoryTabConfigValid (t : InventoryTabConfig) : Bool :=
  decide (t.id ≠ "") && decide (t.label ≠ "") && decide (t.itemEnumId ≠ "") &&
    decide (t.slotFormula ≠ "")

def inventoryConfigValid (cfg : InventoryConfig) : Bool :=
  decide (cfg.tabs ≠ []) && cfg.tabs.all inventoryTabConfigValid

/-- Level-field bounds (level-class-config.schema.ts,
`LevelFieldConfigSchema`). -/
structure LevelFieldConfig : Type where
  label : String
  min : ℤ
  max : ℤ
  default : ℤ
deriving DecidableEq, Repr

/-- Level/class document (`LevelClassConfigSchema`); `classEnum` is flattened
to its `enumId` member. -/
structure LevelClassConfig : Type where
  title : String
  description : String
  classEnumId : String
  levelField : LevelFieldConfig
  addButtonText : String
  emptyStateText : String
  multiclassInfoTemplate : String
deriving DecidableEq, Repr

/-! ## Character record categories

The character record's per-category maps, as JS objects: attribute and
combat-stat values are numbers (finite in every record the app produces,
modelled as ℚ), info values are strings, inventory slots are string arrays.
The attributes passed to the formula evaluator are the integer-valued
attribute map of the record (see `substituteVars`). -/

/-- `config-sync.ts`, `syncAttributesWithConfig`: fresh object keyed by the
configuration's attribute IDs; `current[id] ?? (schema.default ?? 0)`. -/
def syncAttributesWithConfig (currentAttributes : List (String × ℚ))
    (config : AttributesConfig) : List (String × ℚ) :=
  config.attributes.foldl
    (fun syncedAttributes attrConfig =>
      objSet syncedAttributes attrConfig.id
        ((alookup currentAttributes attrConfig.id).getD (attrConfig.schema.default.getD 0)))
    []

/-- `config-sync.ts`, `syncCombatStatsWithConfig`: like attributes, with a
paired stat contributing its two member stats in order. -/
def syncCombatStatsWithConfig (currentStats : List (String × ℚ))
    (config : CombatStatsConfig) : List (String × ℚ) :=
  config.stats.foldl
    (fun syncedStats statOrPair =>
      match statOrPair with
      | CombatStatOrPair.pair firstStat secondStat =>
        objSet
          (objSet syncedStats firstStat.id
            ((alookup currentStats firstStat.id).getD (firstStat.schema.default.getD 0)))
          secondStat.id
          ((alookup currentStats secondStat.id).getD (secondStat.schema.default.getD 0))
      | CombatStatOrPair.single stat =>
        objSet syncedStats stat.id
          ((alookup currentStats stat.id).getD (stat.schema.default.getD 0)))
    []

/-- JS truthiness of `currentInfo[id]`: an absent key (undefined) and the
empty string are falsy. -/
def jsTruthyStr : Option String → Bool
  | some s => decide (s ≠ "")
  | none => false

/-- `config-sync.ts`, `syncCharacterInfoWithConfig`: the source tests
`if (currentInfo[fieldConfig.id])` (truthiness), and on the falsy branch uses
`getEnumDefaultValue(enumRef.enumId)` for enum fields and `''` for text
fields (a text field's configured `defaultValue` is never consulted). -/
def syncCharacterInfoWithConfig (currentInfo : List (String × String))
    (config : CharacterInfoConfig) (getEnumDefaultValue : String → String) :
    List (String × String) :=
  config.fields.foldl
    (fun syncedInfo fieldConfig =>
      objSet syncedInfo (fieldId fieldConfig)
        (if jsTruthyStr (alookup currentInfo (fieldId fieldConfig)) then
          (alookup currentInfo (fieldId fieldConfig)).getD ""
        else
          match fieldConfig with
          | FieldConfig.enum _ _ _ _ _ enumId _ => getEnumDefaultValue enumId
          | FieldConfig.text _ _ _ _ _ _ => ""))
    []

/-- One tab's slot-array adjustment in `syncInventorySlotsWithConfig`:
`none` models a thrown RangeError.  `Array(slotsToAdd)` throws unless its
argument is an integer in `[0, 2^32)`; in particular
`Array(Infinity - length)` throws.  A finite slot count is an integer
(`evaluateFormula` floors), so only the upper bound can fail.  For a count
below the current length, `slice(0, count)` truncates (clamping a negative
count to 0); `slice(0, -Infinity)` and `slice(0, NaN)` both give `[]`
(those cases fall into the `else` branch since `===` and `<` are false). -/
def syncTabSlots (currentTabSlots : List String) (slotCount : JSNum)
    (defaultValue : String) : Option (List String) :=
  match slotCount with
  | JSNum.num q =>
    if (currentTabSlots.length : ℤ) = q then
      some currentTabSlots
    else if (currentTabSlots.length : ℤ) < q then
      let toAdd : ℤ := q - (currentTabSlots.length : ℤ)
      if 0 ≤ toAdd ∧ toAdd < 2 ^ 32 then
        some (currentTabSlots ++ List.replicate toAdd.toNat defaultValue)
      else none
    else some (currentTabSlots.take q.toNat)
  | JSNum.posInf => none
  | JSNum.negInf => some (currentTabSlots.take 0)
  | JSNum.nan => some (currentTabSlots.take 0)

/-- The loop body of `syncInventorySlotsWithConfig` over `config.tabs`;
a RangeError from any tab propagates (`none`). -/
def syncInventoryGo (currentSlots : List (String × List String))
    (attributes : List (String × ℤ)) (getEnumDefaultValue : String → String) :
    List InventoryTabConfig → List (String × List String) →
    Option (List (String × List String))
  | [], syncedSlots => some syncedSlots
  | tabConfig :: rest, syncedSlots =>
    let slotCount := evaluateFormula tabConfig.slotFormula attributes
    let currentTabSlots := (alookup currentSlots tabConfig.id).getD []
    let defaultValue := getEnumDefaultValue tabConfig.itemEnumId
    match syncTabSlots currentTabSlots slotCount defaultValue with
    | none => none
    | some newTabSlots =>
      syncInventoryGo currentSlots attributes getEnumDefaultValue rest
        (objSet syncedSlots tabConfig.id newTabSlots)

/-- `config-sync.ts`, `syncInventorySlotsWithConfig`.  Note
`currentSlots[tab.id] || []` only substitutes `[]` for an absent key, since
every array (even `[]`) is truthy. -/
def syncInventorySlotsWithConfig (currentSlots : List (String × List String))
    (config : InventoryConfig) (attributes : List (String × ℤ))
    (getEnumDefaultValue : String → String) : Option (List (String × List String)) :=
  syncInventoryGo currentSlots attributes getEnumDefaultValue config.tabs []

/-! ## Numeric constraint validator (config-loader utility,
`validateAttributeValue`) -/

/-- JS `value % step !== 0` is false exactly when `step ≠ 0` and `value` is an
integral multiple of `step` (for `step = 0` the remainder is NaN, which
compares unequal to 0).  `value / step` is the fraction
`(value.num * step.den) / (value.den * step.num)`, and it is an integer
exactly when the denominator divides the numerator. -/
def jsModIsZero (value step : ℚ) : Bool :=
  decide (step ≠ 0) && decide ((value.num * (step.den : ℤ)) % (step.num * (value.den : ℤ)) = 0)

/-- `validateAttributeValue(attribute, value, dynamicMaxValue?)`: the chain of
early-return checks of the source, in source order. -/
def validateAttributeValue (attr : AttributeConfig) (value : ℚ)
    (dynamicMaxValue : Option ℚ) : Bool :=
  let schema := attr.schema
  -- Check type
  if schema.type = NumType.integer && !(decide (value.den = 1)) then false
  -- Check minimum
  else if (match schema.minimum with
           | some lo => decide (value < lo)
           | none => false) then false
  -- Check maximum ('dynamic' is only enforced when dynamicMaxValue is given)
  else if (match schema.maximum with
           | some NumMax.dyn =>
             (match dynamicMaxValue with
              | some d => decide (d < value)
              | none => false)
           | some (NumMax.num hi) => decide (hi < value)
           | none => false) then false
  -- Check exclusive minimum
  else if (match schema.exclusiveMinimum with
           | some lo => decide (value ≤ lo)
           | none => false) then false
  -- Check exclusive maximum
  else if (match schema.exclusiveMaximum with
           | some hi => decide (hi ≤ value)
           | none => false) then false
  -- Check multiple of
  else if (match schema.multipleOf with
           | some step => !(jsModIsZero value step)
           | none => false) then false
  else true

/-! ## Configuration manager (config-manager source, `ConfigManager`) -/

/-- `ConfigValidationError {configName, path, message}`. -/
structure ConfigValidationError : Type where
  configName : String
  path : String
  message : String
deriving DecidableEq, Repr

/-- `AppConfig`: the six validated documents. -/
structure AppConfig : Type where
  attributes : AttributesConfig
  enums : EnumsConfig
  characterInfo : CharacterInfoConfig
  combatStats : CombatStatsConfig
  inventory : InventoryConfig
  levelClass : LevelClassConfig
deriving DecidableEq, Repr

/-- `ConfigLoadResult`. -/
inductive ConfigLoadResult : Type where
  | success (config : AppConfig)
  | failure (errors : List ConfigValidationError)
deriving DecidableEq, Repr

def ConfigLoadResult.isSuccess : ConfigLoadResult → Bool
  | ConfigLoadResult.success _ => true
  | ConfigLoadResult.failure _ => false

/-- The error list carried by a result (`[]` for a success). -/
def resultErrors : ConfigLoadResult → List ConfigValidationError
  | ConfigLoadResult.success _ => []
  | ConfigLoadResult.failure errors => errors

/-- IDs present in the loaded enums document. -/
def enumIds (enums : EnumsConfig) : List String := enums.enums.map EnumDefinition.id

/-- `validateEnumReferences`: every enum-typed character-info field's
`enumRef.enumId` must be a loaded enum ID (the error path uses the field id). -/
def validateEnumReferences (characterInfo : CharacterInfoConfig)
    (enums : EnumsConfig) : List ConfigValidationError :=
  characterInfo.fields.filterMap fun field =>
    match fieldEnumId field with
    | none => none
    | some enumId =>
      if enumId ∈ enumIds enums then none
      else some
        { configName := "characterInfo"
          path := "fields." ++ fieldId field ++ ".enumRef.enumId"
          message := "Referenced enum \x27" ++ enumId ++ "\x27 not found in enums configuration" }

/-- The indexed `forEach` loop of `validateInventoryEnumReferences`. -/
def validateInventoryGo (enums : EnumsConfig) : ℕ → List InventoryTabConfig →
    List ConfigValidationError
  | _, [] => []
  | index, tab :: rest =>
    (if tab.itemEnumId ∈ enumIds enums then []
     else
       [{ configName := "inventory"
          path := "tabs." ++ toString index ++ ".itemEnumId"
          message := "Referenced enum \x27" ++ tab.itemEnumId ++ "\x27 not found in enums configuration" }]) ++
      validateInventoryGo enums (index + 1) rest

/-- `validateInventoryEnumReferences`: every tab's `itemEnumId` must be a
loaded enum ID (the error path uses the tab index). -/
def validateInventoryEnumReferences (inventory : InventoryConfig)
    (enums : EnumsConfig) : List ConfigValidationError :=
  validateInventoryGo enums 0 inventory.tabs

/-- `validateLevelClassEnumReferences`. -/
def validateLevelClassEnumReferences (levelClass : LevelClassConfig)
    (enums : EnumsConfig) : List ConfigValidationError :=
  if levelClass.classEnumId ∈ enumIds enums then []
  else
    [{ configName := "levelClass"
       path := "classEnum.enumId"
       message := "Referenced enum \x27" ++ levelClass.classEnumId ++ "\x27 not found in enums configuration" }]

/-! ### Global ID uniqueness (`validateGlobalIdUniqueness`)

The source iterates the five ID-bearing documents in order (enums,
attributes, characterInfo, combatStats, inventory), keeping a
`Map<id, {configName, path}>` of first claimants.  For combat stats it reads
`stat.id` directly on the array element; on a paired stat (a 2-element
array) that property access yields `undefined`, which becomes a Map key of
its own.  Keys are therefore `Option String` with `none` = `undefined`, and
string interpolation of `undefined` prints `"undefined"`. -/

/-- Where an ID was first claimed. -/
structure IdLocation : Type where
  configName : String
  path : String
deriving DecidableEq, Repr

/-- The JS property read `stat.id` on a single-or-pair stat entry. -/
def statIdJS : CombatStatOrPair → Option String
  | CombatStatOrPair.single s => some s.id
  | CombatStatOrPair.pair _ _ => none

/-- `String(key)` as it appears inside the template literal of the message. -/
def jsKeyString : Option String → String
  | some s => s
  | none => "undefined"

/-- The `(key, location)` entries the five `forEach` loops feed to the shared
`idMap`, in source order. -/
def uniqEntries (attributes : AttributesConfig) (enums : EnumsConfig)
    (characterInfo : CharacterInfoConfig) (combatStats : CombatStatsConfig)
    (inventory : InventoryConfig) : List (Option String × IdLocation) :=
  (enums.enums.enum.map fun ei =>
    (some ei.2.id, IdLocation.mk "enums" ("enums." ++ toString ei.1 ++ ".id"))) ++
  (attributes.attributes.enum.map fun ai =>
    (some ai.2.id, IdLocation.mk "attributes" ("attributes." ++ toString ai.1 ++ ".id"))) ++
  (characterInfo.fields.enum.map fun fi =>
    (some (fieldId fi.2), IdLocation.mk "characterInfo" ("fields." ++ toString fi.1 ++ ".id"))) ++
  (combatStats.stats.enum.map fun si =>
    (statIdJS si.2, IdLocation.mk "combatStats" ("stats." ++ toString si.1 ++ ".id"))) ++
  (inventory.tabs.enum.map fun ti =>
    (some ti.2.id, IdLocation.mk "inventory" ("tabs." ++ toString ti.1 ++ ".id")))

/-- The shared loop body: report a collision against the first claimant, else
record the key. -/
def uniqScan : List (Option String × IdLocation) → List (Option String × IdLocation) →
    List ConfigValidationError
  | [], _ => []
  | (key, loc) :: rest, idMap =>
    match alookup idMap key with
    | some existing =>
      { configName := loc.configName
        path := loc.path
        message := "ID \x27" ++ jsKeyString key ++ "\x27 is already used in " ++
          existing.configName ++ " at " ++ existing.path } :: uniqScan rest idMap
    | none => uniqScan rest (idMap ++ [(key, loc)])

/-- `validateGlobalIdUniqueness`. -/
def validateGlobalIdUniqueness (attributes : AttributesConfig) (enums : EnumsConfig)
    (characterInfo : CharacterInfoConfig) (combatStats : CombatStatsConfig)
    (inventory : InventoryConfig) : List ConfigValidationError :=
  uniqScan (uniqEntries attributes enums characterInfo combatStats inventory) []

/-! ### `_loadAllConfigs`

Each of the six `loadConfig` calls either produces a validated document or
throws (fetch failure, JSON error or Zod validation failure); the catch turns
the throw into a list of `ConfigValidationError`s via `extractErrors`.  The
load outcome of each document is therefore an
`Except (List ConfigValidationError) doc` input to the pure combination
logic below, which mirrors the body of `_loadAllConfigs` after the six
try/catch blocks. -/

/-- The errors a document contributed (`catch` branch), `[]` if it loaded. -/
def docErrors {α : Type} : Except (List ConfigValidationError) α → List ConfigValidationError
  | Except.error es => es
  | Except.ok _ => []

/-- The document if it loaded (`null` in the source otherwise). -/
def docOk {α : Type} : Except (List ConfigValidationError) α → Option α
  | Except.error _ => none
  | Except.ok a => some a

/-- The cross-reference check on character info, run only when both documents
loaded (`if (characterInfo && enums)`). -/
def phaseEnumRefErrors
    (rCharacterInfo : Except (List ConfigValidationError) CharacterInfoConfig)
    (rEnums : Except (List ConfigValidationError) EnumsConfig) :
    List ConfigValidationError :=
  match docOk rCharacterInfo, docOk rEnums with
  | some characterInfo, some enums => validateEnumReferences characterInfo enums
  | _, _ => []

/-- The cross-reference check on inventory, run only when both documents
loaded (`if (inventory && enums)`). -/
def phaseInventoryRefErrors
    (rInventory : Except (List ConfigValidationError) InventoryConfig)
    (rEnums : Except (List ConfigValidationError) EnumsConfig) :
    List ConfigValidationError :=
  match docOk rInventory, docOk rEnums with
  | some inventory, some enums => validateInventoryEnumReferences inventory enums
  | _, _ => []

/-- The cross-reference check on level/class, run only when both documents
loaded (`if (levelClass && enums)`). -/
def phaseLevelClassRefErrors
    (rLevelClass : Except (List ConfigValidationError) LevelClassConfig)
    (rEnums : Except (List ConfigValidationError) EnumsConfig) :
    List ConfigValidationError :=
  match docOk rLevelClass, docOk rEnums with
  | some levelClass, some enums => validateLevelClassEnumReferences levelClass enums
  | _, _ => []

/-- The global uniqueness check, run only when all five ID-bearing documents
loaded (`if (attributes && enums && characterInfo && combatStats && inventory)`). -/
def phaseUniquenessErrors
    (rAttributes : Except (List ConfigValidationError) AttributesConfig)
    (rEnums : Except (List ConfigValidationError) EnumsConfig)
    (rCharacterInfo : Except (List ConfigValidationError) CharacterInfoConfig)
    (rCombatStats : Except (List ConfigValidationError) CombatStatsConfig)
    (rInventory : Except (List ConfigValidationError) InventoryConfig) :
    List ConfigValidationError :=
  match docOk rAttributes, docOk rEnums, docOk rCharacterInfo,
      docOk rCombatStats, docOk rInventory with
  | some attributes, some enums, some characterInfo, some combatStats, some inventory =>
    validateGlobalIdUniqueness attributes enums characterInfo combatStats inventory
  | _, _, _, _, _ => []

/-- The accumulated `errors` array in the order the source pushes into it:
six per-document catch blocks, then the three cross-reference checks, then
the uniqueness check. -/
def allPhaseErrors
    (rAttributes : Except (List ConfigValidationError) AttributesConfig)
    (rEnums : Except (List ConfigValidationError) EnumsConfig)
    (rCharacterInfo : Except (List ConfigValidationError) CharacterInfoConfig)
    (rCombatStats : Except (List ConfigValidationError) CombatStatsConfig)
    (rInventory : Except (List ConfigValidationError) InventoryConfig)
    (rLevelClass : Except (List ConfigValidationError) LevelClassConfig) :
    List ConfigValidationError :=
  docErrors rAttributes ++ docErrors rEnums ++ docErrors rCharacterInfo ++
    docErrors rCombatStats ++ docErrors rInventory ++ docErrors rLevelClass ++
    phaseEnumRefErrors rCharacterInfo rEnums ++
    phaseInventoryRefErrors rInventory rEnums ++
    phaseLevelClassRefErrors rLevelClass rEnums ++
    phaseUniquenessErrors rAttributes rEnums rCharacterInfo rCombatStats rInventory

/-- The body of `_loadAllConfigs` given the six per-document outcomes:
accumulate per-document errors, run each cross-reference check when both of
its documents loaded, run the global uniqueness check when all five
ID-bearing documents loaded, and succeed only when no error
was produced and all six documents loaded
(`if (errors.length > 0 || !attributes || ... || !levelClass)`). -/
def loadAllConfigsPure
    (rAttributes : Except (List ConfigValidationError) AttributesConfig)
    (rEnums : Except (List ConfigValidationError) EnumsConfig)
    (rCharacterInfo : Except (List ConfigValidationError) CharacterInfoConfig)
    (rCombatStats : Except (List ConfigValidationError) CombatStatsConfig)
    (rInventory : Except (List ConfigValidationError) InventoryConfig)
    (rLevelClass : Except (List ConfigValidationError) LevelClassConfig) :
    ConfigLoadResult :=
  let errors :=
    allPhaseErrors rAttributes rEnums rCharacterInfo rCombatStats rInventory rLevelClass
  match docOk rAttributes, docOk rEnums, docOk rCharacterInfo, docOk rCombatStats,
      docOk rInventory, docOk rLevelClass with
  | some attributes, some enums, some characterInfo, some combatStats, some inventory,
      some levelClass =>
    if errors = [] then
      ConfigLoadResult.success (AppConfig.mk attributes enums characterInfo combatStats
        inventory levelClass)
    else ConfigLoadResult.failure errors
  | _, _, _, _, _, _ => ConfigLoadResult.failure errors

/-! ### Caching state machine (`loadAllConfigs`, `reset`)

The manager's mutable fields `config`, `loadPromise` and `errors`, with the
in-flight promise identified by a number.  `loadAllConfigsCall` is the
synchronous head of `loadAllConfigs` (up to starting `_loadAllConfigs`);
`loadCompletes` is the effect of the started load resolving, including the
`loadPromise = null` reset after the await. -/

structure ManagerState : Type where
  config : Option AppConfig
  loadPromise : Option ℕ
  errors : List ConfigValidationError
deriving DecidableEq, Repr

/-- The freshly constructed manager. -/
def initialManagerState : ManagerState := ManagerState.mk none none []

/-- What a `loadAllConfigs()` call returns to its caller. -/
inductive LoadCallOutcome : Type where
  | awaitExisting (promiseId : ℕ)
  | cachedSuccess (config : AppConfig)
  | startedLoad (promiseId : ℕ)
deriving DecidableEq, Repr

/-- `loadAllConfigs()`: return the in-flight promise if any, else the cached
config if any, else start `_loadAllConfigs` (recording its promise). -/
def loadAllConfigsCall (s : ManagerState) (freshPromiseId : ℕ) :
    LoadCallOutcome × ManagerState :=
  match s.loadPromise with
  | some promiseId => (LoadCallOutcome.awaitExisting promiseId, s)
  | none =>
    match s.config with
    | some config => (LoadCallOutcome.cachedSuccess config, s)
    | none =>
      (LoadCallOutcome.startedLoad freshPromiseId,
        ManagerState.mk s.config (some freshPromiseId) s.errors)

/-- The started load resolving with `result`: on success `_loadAllConfigs`
caches the config, on failure it stores the errors and caches nothing; in
both cases `loadAllConfigs` then clears `loadPromise`. -/
def loadCompletes (s : ManagerState) (result : ConfigLoadResult) : ManagerState :=
  match result with
  | ConfigLoadResult.success config => ManagerState.mk (some config) none s.errors
  | ConfigLoadResult.failure errors => ManagerState.mk s.config none errors

/-- `reset()`. -/
def resetManager : ManagerState := ManagerState.mk none none []

/-! ## Persistence (persistence.ts, `deserializeCharacter`)

The input is the value produced by `JSON.parse` (a text that did not parse
throws earlier and is caught: `"Parse error: ..."`).  The strict validator
`validateCharacterSheet` (a Zod safeParse) only contributes its success bit
to the control flow, so it is a parameter of the embedding; the claim under
test conditions on it failing. -/

/-- A parsed JSON value. -/
inductive JValue : Type where
  | null
  | bool (b : Bool)
  | num (q : ℚ)
  | str (s : String)
  | arr (elems : List JValue)
  | obj (fields : List (String × JValue))

/-- JS property read `parsed.key`: `none` is `undefined`.  Reading a property
of `null` throws, which the caller's try/catch turns into a parse error; that
case is handled before this function is consulted. -/
def jsProp : JValue → String → Option JValue
  | JValue.obj fields, key => alookup fields key
  | _, _ => none

/-- JS truthiness of a property-read result: `undefined`, `null`, `false`,
`0` and `""` are falsy; every object and array is truthy. -/
def jsTruthyProp : Option JValue → Bool
  | none => false
  | some JValue.null => false
  | some (JValue.bool b) => b
  | some (JValue.num q) => decide (q ≠ 0)
  | some (JValue.str s) => decide (s ≠ "")
  | some (JValue.arr _) => true
  | some (JValue.obj _) => true

/-- The deserialization outcome `{success:true, data} | {success:false, error}`. -/
inductive DeserializeResult : Type where
  | ok (data : JValue)
  | err (message : String)

/-- `deserializeCharacter` on an input that parsed as JSON: strict validation
first; on failure, the permissive branch accepts iff
`parsed.version && parsed.level && parsed.attributes && parsed.combatStats &&
parsed.characterInfo && parsed.inventorySlots && parsed.resourceCounters`
is truthy (the source tests truthiness, not key presence).  Property access
on a parsed `null` throws a TypeError that the outer catch reports as a parse
error.  The error strings stand for the messages the source interpolates. -/
def deserializeCharacter (parsed : JValue) (validateCharacterSheet : JValue → Bool) :
    DeserializeResult :=
  if validateCharacterSheet parsed then DeserializeResult.ok parsed
  else
    match parsed with
    | JValue.null => DeserializeResult.err "Parse error"
    | _ =>
      if jsTruthyProp (jsProp parsed "version") &&
          jsTruthyProp (jsProp parsed "level") &&
          jsTruthyProp (jsProp parsed "attributes") &&
          jsTruthyProp (jsProp parsed "combatStats") &&
          jsTruthyProp (jsProp parsed "characterInfo") &&
          jsTruthyProp (jsProp parsed "inventorySlots") &&
          jsTruthyProp (jsProp parsed "resourceCounters") then
        DeserializeResult.ok parsed
      else DeserializeResult.err "Validation failed"

/-- The seven top-level keys the permissive branch consults, in source order. -/
def requiredCharacterKeys : List String :=
  ["version", "level", "attributes", "combatStats", "characterInfo",
    "inventorySlots", "resourceCounters"]

/-! ## Semantic descriptions used to state the claims

These definitions restate, independently of the implementation's fold/scan
shapes, what the checks decide; the theorems connect them to the code. -/

/-- Every enum reference in the character-info fields resolves. -/
def enumRefsResolve (characterInfo : CharacterInfoConfig) (enums : EnumsConfig) : Bool :=
  characterInfo.fields.all fun f =>
    match fieldEnumId f with
    | some eid => decide (eid ∈ enumIds enums)
    | none => true

/-- Every inventory tab's item enum reference resolves. -/
def inventoryRefsResolve (inventory : InventoryConfig) (enums : EnumsConfig) : Prop :=
  ∀ tab ∈ inventory.tabs, tab.itemEnumId ∈ enumIds enums

/-- The level/class document's class enum reference resolves. -/
def levelClassRefResolves (levelClass : LevelClassConfig) (enums : EnumsConfig) : Prop :=
  levelClass.classEnumId ∈ enumIds enums

/-- The key multiset the uniqueness check actually scans, in source order:
enum IDs, attribute IDs, field IDs, the `stat.id` property reads (`none`,
i.e. `undefined`, for each paired stat), and tab IDs. -/
def collectedUniqKeys (attributes : AttributesConfig) (enums : EnumsConfig)
    (characterInfo : CharacterInfoConfig) (combatStats : CombatStatsConfig)
    (inventory : InventoryConfig) : List (Option String) :=
  enums.enums.map (fun e => some e.id) ++
    attributes.attributes.map (fun a => some a.id) ++
    characterInfo.fields.map (fun f => some (fieldId f)) ++
    combatStats.stats.map statIdJS ++
    inventory.tabs.map (fun t => some t.id)

/-- No collision among the keys the check scans. -/
def globalIdsDistinct (attributes : AttributesConfig) (enums : EnumsConfig)
    (characterInfo : CharacterInfoConfig) (combatStats : CombatStatsConfig)
    (inventory : InventoryConfig) : Prop :=
  (collectedUniqKeys attributes enums characterInfo combatStats inventory).Nodup

/-- The ID union as claim C1 words it: pairs flattened into both member IDs. -/
def flattenedIdUnion (attributes : AttributesConfig) (enums : EnumsConfig)
    (characterInfo : CharacterInfoConfig) (combatStats : CombatStatsConfig)
    (inventory : InventoryConfig) : List String :=
  enums.enums.map EnumDefinition.id ++
    attributes.attributes.map AttributeConfig.id ++
    characterInfo.fields.map fieldId ++
    combatStats.stats.flatMap statFlatIds ++
    inventory.tabs.map InventoryTabConfig.id

/-- The member stats of a single-or-paired entry, in order. -/
def statFlat : CombatStatOrPair → List CombatStatConfig
  | CombatStatOrPair.single s => [s]
  | CombatStatOrPair.pair f s => [f, s]

/-- The natural-number value of a JS number, when it has one. -/
def jsNatValue : JSNum → Option ℕ
  | JSNum.num n => if 0 ≤ n then some n.toNat else none
  | _ => none

/-- The slot count a tab's formula computes over the given attributes
(`0` when the evaluator's result is not a natural number). -/
def slotCountOf (tab : InventoryTabConfig) (attributes : List (String × ℤ)) : ℕ :=
  (jsNatValue (evaluateFormula tab.slotFormula attributes)).getD 0

/-- The character-info reconciliation rule exactly as claim C4 words it
(definition written from the claim, for comparison with the code): copy the
record's existing value whenever the key is present; otherwise a text field
gets its configured string default or `""` and an enum field gets the
enum-default lookup's value. -/
def claimC4InfoSync (currentInfo : List (String × String)) (config : CharacterInfoConfig)
    (getEnumDefaultValue : String → String) : List (String × String) :=
  config.fields.map fun f =>
    (fieldId f,
      match alookup currentInfo (fieldId f) with
      | some v => v
      | none =>
        match f with
        | FieldConfig.text _ _ _ _ _ defaultValue => defaultValue.getD ""
        | FieldConfig.enum _ _ _ _ _ enumId _ => getEnumDefaultValue enumId)

/-! ## Concrete documents used by the counterexamples and witnesses -/

/-- An integer schema with inclusive bounds 0..10 and default 0. -/
def schema0to10 : NumericSchema :=
  NumericSchema.mk NumType.integer (some 0) (some (NumMax.num 10)) none none none (some 0)

/-- A current-value schema capped dynamically by its pair partner. -/
def schemaDynCap : NumericSchema :=
  NumericSchema.mk NumType.integer (some 0) (some NumMax.dyn) none none none (some 10)

/-- A schema with no maximum at all. -/
def schemaNoMax : NumericSchema :=
  NumericSchema.mk NumType.integer (some 0) none none none none (some 10)

def mkAttribute (i : String) : AttributeConfig :=
  AttributeConfig.mk i i "" none none schema0to10

def mkCombatStat (i : String) (s : NumericSchema) : CombatStatConfig :=
  CombatStatConfig.mk i i "" none s

/-- Attributes document: the single attribute `str`. -/
def attrsStr : AttributesConfig := AttributesConfig.mk "Attributes" [mkAttribute "str"]

/-- Enums document: the single enumeration `hp` (its ID collides with the
combat-stat pair member below). -/
def enumsHp : EnumsConfig :=
  EnumsConfig.mk [EnumDefinition.mk "hp" "HP" none [EnumValue.str "a"]]

/-- Enums document: the single enumeration `species`. -/
def enumsSpecies : EnumsConfig :=
  EnumsConfig.mk [EnumDefinition.mk "species" "Species" none
    [EnumValue.str "Human", EnumValue.str "Elf"]]

/-- Character-info document: the single text field `bio`. -/
def ciBio : CharacterInfoConfig :=
  CharacterInfoConfig.mk "Info" [FieldConfig.text "bio" "Bio" none none none none]

/-- A paired combat stat `(hp, maxHp)` whose current member's ID is `hp`. -/
def csPairHp : CombatStatsConfig :=
  CombatStatsConfig.mk "Combat"
    [CombatStatOrPair.pair (mkCombatStat "hp" schemaDynCap) (mkCombatStat "maxHp" schema0to10)]

/-- Two valid paired stats with four distinct member IDs. -/
def csTwoPairs : CombatStatsConfig :=
  CombatStatsConfig.mk "Combat"
    [CombatStatOrPair.pair (mkCombatStat "hp" schemaDynCap) (mkCombatStat "maxHp" schema0to10),
     CombatStatOrPair.pair (mkCombatStat "mp" schemaDynCap) (mkCombatStat "maxMp" schema0to10)]

/-- Inventory document: one tab whose item catalog is the `hp` enumeration. -/
def invBagHp : InventoryConfig :=
  InventoryConfig.mk "Inventory" [InventoryTabConfig.mk "bag" "Bag" "" "" "hp" "1" none]

/-- Inventory document: one tab whose item catalog is the `species`
enumeration. -/
def invBagSpecies : InventoryConfig :=
  InventoryConfig.mk "Inventory" [InventoryTabConfig.mk "bag" "Bag" "" "" "species" "1" none]

/-- Inventory document: one tab with ID `species`, colliding with the
`species` enumeration. -/
def invSpeciesTab : InventoryConfig :=
  InventoryConfig.mk "Inventory"
    [InventoryTabConfig.mk "species" "Species items" "" "" "species" "1" none]

/-- Inventory document: one tab whose slot formula divides by zero. -/
def invDiv0 : InventoryConfig :=
  InventoryConfig.mk "Inventory" [InventoryTabConfig.mk "bag" "Bag" "" "" "species" "1/0" none]

/-- Inventory document: one tab with the constant slot formula `2`. -/
def invTwoSlots : InventoryConfig :=
  InventoryConfig.mk "Inventory" [InventoryTabConfig.mk "bag" "Bag" "" "" "species" "2" none]

/-- Level/class document referencing the `species` enumeration. -/
def lcSpecies : LevelClassConfig :=
  LevelClassConfig.mk "Level" "" "species" (LevelFieldConfig.mk "Level" 1 20 1) "Add" "None" "T"

/-- A combat-stats document with an invalid pair: both members dynamic. -/
def csBothDyn : CombatStatsConfig :=
  CombatStatsConfig.mk "Combat"
    [CombatStatOrPair.pair (mkCombatStat "hp" schemaDynCap) (mkCombatStat "maxHp" schemaDynCap)]

/-- A character-info document with a text field carrying a default and an
enum field, exercising claim C4's default rules. -/
def ciNameRace : CharacterInfoConfig :=
  CharacterInfoConfig.mk "Info"
    [FieldConfig.text "name" "Name" none none none (some "Bob"),
     FieldConfig.enum "race" "Race" none none none "species" none]

/-- Attributes document with the single attribute `str` defaulting to 7. -/
def attrsDefault7 : AttributesConfig :=
  AttributesConfig.mk "Attributes"
    [AttributeConfig.mk "str" "Strength" "" none none
      (NumericSchema.mk NumType.integer (some 0) (some (NumMax.num 10)) none none none (some 7))]

/-- An attribute whose schema has `multipleOf: 3` alongside bounds 0..10. -/
def attrMul3 : AttributeConfig :=
  AttributeConfig.mk "speed" "Speed" "" none none
    (NumericSchema.mk NumType.integer (some 0) (some (NumMax.num 10)) none none (some 3) none)

/-- An attribute whose schema is only `multipleOf: 5`. -/
def attrStep5 : AttributeConfig :=
  AttributeConfig.mk "speed" "Speed" "" none none
    (NumericSchema.mk NumType.integer none none none none (some 5) none)

/-- An attribute with integer bounds 1..4 and no other constraints. -/
def attrMinMax : AttributeConfig :=
  AttributeConfig.mk "str" "Strength" "" none none
    (NumericSchema.mk NumType.integer (some 1) (some (NumMax.num 4)) none none none none)

/-- A transport error for the attributes document (fetch failure → caught →
a single document-level error with empty path). -/
def attrLoadErr : ConfigValidationError :=
  ConfigValidationError.mk "attributes" "" "Failed to load attributes: 404 Not Found"

/-- A transport error for the level/class document. -/
def lcLoadErr : ConfigValidationError :=
  ConfigValidationError.mk "levelClass" "" "Failed to load levelClass: 404 Not Found"

/-- Enums document: the single enumeration `x`. -/
def enumsX : EnumsConfig :=
  EnumsConfig.mk [EnumDefinition.mk "x" "X" none [EnumValue.str "a"]]

/-- Inventory document: one tab with ID `x`, colliding with the `x`
enumeration. -/
def invTabX : InventoryConfig :=
  InventoryConfig.mk "Inventory" [InventoryTabConfig.mk "x" "X items" "" "" "x" "1" none]

/-- Combat-stats document: the single unpaired stat `stat1`. -/
def csSingle : CombatStatsConfig :=
  CombatStatsConfig.mk "Combat" [CombatStatOrPair.single (mkCombatStat "stat1" schema0to10)]

/-- Level/class document referencing the `x` enumeration. -/
def lcX : LevelClassConfig :=
  LevelClassConfig.mk "Level" "" "x" (LevelFieldConfig.mk "Level" 1 20 1) "Add" "None" "T"

/-- A parsed character whose seven required keys are all present but whose
`level` is the falsy number `0`. -/
def characterLevel0 : JValue :=
  JValue.obj [("version", JValue.str "1.0.0"), ("level", JValue.num 0),
    ("attributes", JValue.obj []), ("combatStats", JValue.obj []),
    ("characterInfo", JValue.obj []), ("inventorySlots", JValue.obj []),
    ("resourceCounters", JValue.arr [])]

/-- A parsed character whose seven required keys are all present and truthy
(arrays and objects are truthy even when empty). -/
def characterMinimal : JValue :=
  JValue.obj [("version", JValue.str "1.0.0"), ("level", JValue.arr []),
    ("attributes", JValue.obj []), ("combatStats", JValue.obj []),
    ("characterInfo", JValue.obj []), ("inventorySlots", JValue.obj []),
    ("resourceCounters", JValue.arr [])]


/-! # Theorems -/

@[simp] theorem alookup_nil {κ α : Type} [DecidableEq κ] (k : κ) :
    alookup ([] : List (κ × α)) k = none := rfl

@[simp] theorem alookup_cons {κ α : Type} [DecidableEq κ] (k key : κ) (v : α) (rest : List (κ × α)) :
    alookup ((k, v) :: rest) key = if k = key then some v else alookup rest key := rfl

theorem alookup_append {κ α : Type} [DecidableEq κ] (l₁ l₂ : List (κ × α)) (k : κ) :
    alookup (l₁ ++ l₂) k = ((alookup l₁ k).or (alookup l₂ k)) := by
  induction l₁ with
  | nil => simp
  | cons hd tl ih =>
    obtain ⟨k', v⟩ := hd
    by_cases h : k' = k <;> simp [alookup, h, ih]

/-- Writing a key that is absent appends the binding at the end. -/
theorem objSet_eq_append {κ α : Type} [DecidableEq κ] (l : List (κ × α)) (k : κ) (v : α)
    (h : alookup l k = none) : objSet l k v = l ++ [(k, v)] := by
  induction l with
  | nil => rfl
  | cons hd tl ih =>
    obtain ⟨k', v'⟩ := hd
    by_cases hk : k' = k
    · simp [alookup, hk] at h
    · simp only [alookup, if_neg hk] at h
      simp [objSet, hk, ih h]

/-- Looking up a mapped-pairs list. -/
theorem alookup_map_eq_none {κ α β : Type} [DecidableEq κ] (f : α → κ) (g : α → β)
    (l : List α) (k : κ) (h : k ∉ l.map f) :
    alookup (l.map fun a => (f a, g a)) k = none := by
  induction l with
  | nil => rfl
  | cons hd tl ih =>
    simp only [List.map_cons, List.mem_cons, not_or] at h
    simp [alookup, h.1, ih h.2, Ne.symm h.1]

theorem alookup_map_of_mem {κ α β : Type} [DecidableEq κ] (f : α → κ) (g : α → β)
    (l : List α) (a : α) (ha : a ∈ l) (hnodup : (l.map f).Nodup) :
    alookup (l.map fun x => (f x, g x)) (f a) = some (g a) := by
  induction l with
  | nil => cases ha
  | cons hd tl ih =>
    simp only [List.map_cons, List.nodup_cons] at hnodup
    rcases List.mem_cons.mp ha with h | h
    · subst h; simp [alookup]
    · have hne : f hd ≠ f a := by
        intro hEq
        exact hnodup.1 (hEq ▸ List.mem_map_of_mem f h)
      simp [alookup, hne, ih h hnodup.2]

/-- A fold of JS object writes over fresh keys is a plain map. -/
theorem foldl_objSet_eq_map {κ α β : Type} [DecidableEq κ] (f : α → κ) (g : α → β)
    (l : List α) (acc : List (κ × β))
    (hnodup : (l.map f).Nodup) (hfresh : ∀ a ∈ l, alookup acc (f a) = none) :
    l.foldl (fun m a => objSet m (f a) (g a)) acc = acc ++ l.map fun a => (f a, g a) := by
  induction l generalizing acc with
  | nil => simp
  | cons hd tl ih =>
    simp only [List.map_cons, List.nodup_cons] at hnodup
    have hset : objSet acc (f hd) (g hd) = acc ++ [(f hd, g hd)] :=
      objSet_eq_append _ _ _ (hfresh hd (List.mem_cons_self hd tl))
    have hfresh' : ∀ a ∈ tl, alookup (acc ++ [(f hd, g hd)]) (f a) = none := by
      intro a ha
      rw [alookup_append, hfresh a (List.mem_cons_of_mem hd ha)]
      have hne : f hd ≠ f a := by
        intro hEq
        exact hnodup.1 (hEq ▸ List.mem_map_of_mem f ha)
      simp [alookup, hne, Option.or]
    simp only [List.foldl_cons, hset]
    rw [ih _ hnodup.2 hfresh']
    simp

/-! ## C6: division by zero in the formula evaluator -/

/-- C6: the claim states `evaluateFormula("STR / 0", {STR: 4})` returns 0 and
that division by zero is degraded to 0 rather than a non-finite number.  The
code disagrees: JavaScript `4 / 0` evaluates to `Infinity` without throwing,
`isNaN(Infinity)` is false, and `Math.max(0, Math.floor(Infinity))` is
`Infinity`, so the function returns `Infinity` — contradicting both the spec
and the function's own doc comment ("Returns integer result (rounded down),
minimum 0").  Only `0 / 0` (NaN) is caught by the `isNaN` guard. -/
theorem C6_division_by_zero_yields_infinity :
    evaluateFormula "STR / 0" [("STR", 4)] = JSNum.posInf ∧
    JSNum.posInf ≠ JSNum.num 0 ∧
    evaluateFormula "0 / 0" [("STR", 4)] = JSNum.num 0 := by decide

/-! ## C1: the global uniqueness check does not flatten paired stats -/

/-- C1: the claim states the uniqueness namespace is the union of enum,
attribute, info-field, combat-stat (pairs flattened to both member IDs) and
tab IDs.  The code reads `stat.id` on each element of `stats`; on a paired
stat (an array) that is `undefined`, so (first scenario) a pair member ID
colliding with an enumeration ID is not detected, and (second scenario) two
perfectly valid pairs collide on the shared `undefined` key, producing a
spurious error.  Both scenarios use documents accepted by the Zod document
validators. -/
theorem C1_pairs_not_flattened :
    -- scenario 1: five schema-valid documents ...
    (attributesConfigValid attrsStr && enumsConfigValid enumsHp &&
      characterInfoConfigValid ciBio && combatStatsConfigValid csPairHp &&
      inventoryConfigValid invBagHp) = true ∧
    -- ... whose flattened ID union has a duplicate ("hp" twice) ...
    ¬ (flattenedIdUnion attrsStr enumsHp ciBio csPairHp invBagHp).Nodup ∧
    -- ... on which the check reports nothing:
    validateGlobalIdUniqueness attrsStr enumsHp ciBio csPairHp invBagHp = [] ∧
    -- scenario 2: a valid document with two pairs and distinct member IDs ...
    (attributesConfigValid attrsStr && enumsConfigValid enumsSpecies &&
      characterInfoConfigValid ciBio && combatStatsConfigValid csTwoPairs &&
      inventoryConfigValid invBagSpecies) = true ∧
    (flattenedIdUnion attrsStr enumsSpecies ciBio csTwoPairs invBagSpecies).Nodup ∧
    -- ... on which the check reports a bogus collision between the two pairs:
    validateGlobalIdUniqueness attrsStr enumsSpecies ciBio csTwoPairs invBagSpecies =
      [ConfigValidationError.mk "combatStats" "stats.1.id"
        "ID \x27undefined\x27 is already used in combatStats at stats.0.id"] := by decide

/-! ## C9: paired combat-stat validation -/

/-- C9 (amended): the paired form is accepted, and a pair whose first member
has the dynamic maximum is accepted exactly when its second member's maximum
is **not the dynamic sentinel** — the source refine tests
`second.schema.maximum !== 'dynamic'`, which an *absent* maximum also
satisfies, so a concrete numeric maximum is not actually required.  A
violating pair (both dynamic) makes the whole combat-stats document fail
validation; a conforming pair is accepted. -/
theorem C9_paired_dynamic_first_requires_nondynamic_second :
    (∀ fst snd : CombatStatConfig,
      pairedCombatStatConfigValid fst snd = true ↔
        (combatStatConfigValid fst = true ∧ combatStatConfigValid snd = true ∧
          (fst.schema.maximum = some NumMax.dyn → snd.schema.maximum ≠ some NumMax.dyn))) ∧
    combatStatsConfigValid csBothDyn = false ∧
    combatStatsConfigValid csPairHp = true := by
  refine ⟨?_, by decide, by decide⟩
  intro fst snd
  unfold pairedCombatStatConfigValid pairedCombatStatRefine
  by_cases h : fst.schema.maximum = some NumMax.dyn <;>
    simp [h, Bool.and_eq_true, and_assoc]

/-- C9 counterexample: a pair whose first member is dynamically capped and
whose second member has **no maximum at all** is accepted by the validator,
although the claim states the second member must have a concrete numeric
maximum. -/
theorem C9_counterexample_absent_maximum_accepted :
    pairedCombatStatConfigValid (mkCombatStat "hp" schemaDynCap)
      (mkCombatStat "maxHp" schemaNoMax) = true ∧
    (mkCombatStat "hp" schemaDynCap).schema.maximum = some NumMax.dyn ∧
    (mkCombatStat "maxHp" schemaNoMax).schema.maximum = none := by decide

/-- C9 witness: the amended equivalence applied to the concrete `(hp, maxHp)`
pair with a dynamic current and a numeric maximum. -/
theorem C9_witness_hp_pair_accepted :
    pairedCombatStatConfigValid (mkCombatStat "hp" schemaDynCap)
      (mkCombatStat "maxHp" schema0to10) = true :=
  (C9_paired_dynamic_first_requires_nondynamic_second.1
      (mkCombatStat "hp" schemaDynCap) (mkCombatStat "maxHp" schema0to10)).mpr
    ⟨by decide, by decide, by decide⟩

/-! ## C10: permissive deserialization -/

/-- On any non-null parsed value that fails strict validation,
`deserializeCharacter` reduces to the truthiness test of the seven keys. -/
theorem deserializeCharacter_not_null (parsed : JValue) (validate : JValue → Bool)
    (hval : validate parsed = false) (hnull : parsed ≠ JValue.null) :
    deserializeCharacter parsed validate =
      (if (jsTruthyProp (jsProp parsed "version") && jsTruthyProp (jsProp parsed "level") &&
          jsTruthyProp (jsProp parsed "attributes") &&
          jsTruthyProp (jsProp parsed "combatStats") &&
          jsTruthyProp (jsProp parsed "characterInfo") &&
          jsTruthyProp (jsProp parsed "inventorySlots") &&
          jsTruthyProp (jsProp parsed "resourceCounters")) = true then
        DeserializeResult.ok parsed
      else DeserializeResult.err "Validation failed") := by
  cases parsed
  case null => exact absurd rfl hnull
  all_goals
    simp only [deserializeCharacter, hval, Bool.false_eq_true, if_false]

/-- An `ok`/`err` conditional equals `ok` exactly when its condition holds. -/
theorem ifOkIff (b : Bool) (x : JValue) :
    ((if b = true then DeserializeResult.ok x
      else DeserializeResult.err "Validation failed") =
        DeserializeResult.ok x ↔ b = true) := by
  cases b
  · constructor
    · intro h; exact absurd h (by intro h'; cases h')
    · intro h; cases h
  · simp

/-- C10 (amended): when strict validation fails, the permissive branch
accepts the parsed payload iff all seven required top-level keys are present
with **truthy** values (the source tests `parsed.version && parsed.level &&
...`, so a present key holding a falsy value such as `0`, `""`, `false` or
`null` is rejected, contrary to the claim's "regardless of the shape of
their values"); a parsed `null` payload is reported as a parse error (the
property access throws and is caught); no exception escapes in any case,
since every input produces a `DeserializeResult`. -/
theorem C10_permissive_requires_truthy_keys :
    (∀ (parsed : JValue) (validate : JValue → Bool),
      validate parsed = false → parsed ≠ JValue.null →
      (deserializeCharacter parsed validate = DeserializeResult.ok parsed ↔
        (jsTruthyProp (jsProp parsed "version") = true ∧
          jsTruthyProp (jsProp parsed "level") = true ∧
          jsTruthyProp (jsProp parsed "attributes") = true ∧
          jsTruthyProp (jsProp parsed "combatStats") = true ∧
          jsTruthyProp (jsProp parsed "characterInfo") = true ∧
          jsTruthyProp (jsProp parsed "inventorySlots") = true ∧
          jsTruthyProp (jsProp parsed "resourceCounters") = true))) ∧
    (∀ validate : JValue → Bool, validate JValue.null = false →
      deserializeCharacter JValue.null validate = DeserializeResult.err "Parse error") := by
  constructor
  · intro parsed validate hval hnull
    rw [deserializeCharacter_not_null parsed validate hval hnull, ifOkIff]
    simp only [Bool.and_eq_true, and_assoc]
  · intro validate hval
    unfold deserializeCharacter
    rw [hval]
    rfl

/-- C10 counterexample: a payload that fails strict validation, carries all
seven required keys (each `isSome`), but holds the falsy value `0` at
`level` — the claim says it must be accepted, the code rejects it. -/
theorem C10_counterexample_falsy_key_rejected :
    requiredCharacterKeys.all (fun k => (jsProp characterLevel0 k).isSome) = true ∧
    deserializeCharacter characterLevel0 (fun _ => false) =
      DeserializeResult.err "Validation failed" := ⟨rfl, rfl⟩

/-- C10 witness: the amended equivalence applied to a concrete payload with
all seven keys truthy and a failing strict validator. -/
theorem C10_witness_minimal_accepted :
    deserializeCharacter characterMinimal (fun _ => false) =
      DeserializeResult.ok characterMinimal :=
  (C10_permissive_requires_truthy_keys.1 characterMinimal (fun _ => false) rfl
      (fun h => JValue.noConfusion h)).mpr
    ⟨rfl, rfl, rfl, rfl, rfl, rfl, rfl⟩

/-! ## C7: numeric constraint validation -/

/-- A value below a defined minimum is always rejected (whatever the other
constraints do). -/
theorem validateAttributeValue_false_below_min (a : AttributeConfig) (v : ℚ)
    (d : Option ℚ) (lo : ℚ) (hmin : a.schema.minimum = some lo) (hlt : v < lo) :
    validateAttributeValue a v d = false := by
  simp only [validateAttributeValue]
  split
  · rfl
  · rw [hmin]
    simp [hlt]

/-- The value of a defined `exclusiveMinimum` is always rejected. -/
theorem validateAttributeValue_false_at_exclusiveMin (a : AttributeConfig) (d : Option ℚ)
    (lo : ℚ) (hemin : a.schema.exclusiveMinimum = some lo) :
    validateAttributeValue a lo d = false := by
  simp only [validateAttributeValue]
  split
  · rfl
  split
  · rfl
  split
  · rfl
  rw [hemin]
  simp

/-- The value of a defined `exclusiveMaximum` is always rejected. -/
theorem validateAttributeValue_false_at_exclusiveMax (a : AttributeConfig) (d : Option ℚ)
    (hi : ℚ) (hemax : a.schema.exclusiveMaximum = some hi) :
    validateAttributeValue a hi d = false := by
  simp only [validateAttributeValue]
  split
  · rfl
  split
  · rfl
  split
  · rfl
  split
  · rfl
  rw [hemax]
  simp

/-- With only inclusive bounds (no exclusive bounds, no step) any value
between them that satisfies the type check is accepted. -/
theorem validateAttributeValue_true_within_bounds (a : AttributeConfig) (v : ℚ)
    (d : Option ℚ) (lo hi : ℚ)
    (hmin : a.schema.minimum = some lo) (hmax : a.schema.maximum = some (NumMax.num hi))
    (hemin : a.schema.exclusiveMinimum = none) (hemax : a.schema.exclusiveMaximum = none)
    (hmof : a.schema.multipleOf = none)
    (hint : a.schema.type = NumType.integer → v.den = 1)
    (hge : lo ≤ v) (hle : v ≤ hi) :
    validateAttributeValue a v d = true := by
  simp only [validateAttributeValue]
  rw [hmin, hmax, hemin, hemax, hmof]
  have h2 : ¬ (v < lo) := not_lt.mpr hge
  have h3 : ¬ (hi < v) := not_lt.mpr hle
  by_cases ht : a.schema.type = NumType.integer
  · simp [ht, hint ht, h2, h3]
  · simp [ht, h2, h3]

/-- C7 (amended): with both inclusive bounds defined, `minimum ≤ maximum`,
**no exclusive bounds, no step**, and integral bounds when the value type is
integer, the validator accepts both bounds; a value of `minimum − 1` is
rejected whenever `minimum` is defined; the value of a defined
`exclusiveMinimum` or `exclusiveMaximum` is itself rejected; and with only a
step of 5 the values 0, 5, 10 are accepted and 7 is rejected.  (The claim's
first clause is false without the no-other-constraint proviso: an exclusive
bound or step can exclude the boundary values — see the counterexample.) -/
theorem C7_bounds_and_step :
    (∀ (a : AttributeConfig) (d : Option ℚ) (lo hi : ℚ),
      a.schema.minimum = some lo → a.schema.maximum = some (NumMax.num hi) →
      a.schema.exclusiveMinimum = none → a.schema.exclusiveMaximum = none →
      a.schema.multipleOf = none →
      (a.schema.type = NumType.integer → lo.den = 1 ∧ hi.den = 1) →
      lo ≤ hi →
      validateAttributeValue a lo d = true ∧ validateAttributeValue a hi d = true) ∧
    (∀ (a : AttributeConfig) (d : Option ℚ) (lo : ℚ), a.schema.minimum = some lo →
      validateAttributeValue a (lo - 1) d = false) ∧
    (∀ (a : AttributeConfig) (d : Option ℚ) (lo : ℚ), a.schema.exclusiveMinimum = some lo →
      validateAttributeValue a lo d = false) ∧
    (∀ (a : AttributeConfig) (d : Option ℚ) (hi : ℚ), a.schema.exclusiveMaximum = some hi →
      validateAttributeValue a hi d = false) ∧
    (validateAttributeValue attrStep5 0 none = true ∧
      validateAttributeValue attrStep5 5 none = true ∧
      validateAttributeValue attrStep5 10 none = true ∧
      validateAttributeValue attrStep5 7 none = false) := by
  refine ⟨?_, ?_, ?_, ?_, by decide⟩
  · intro a d lo hi hmin hmax hemin hemax hmof hint hle
    constructor
    · exact validateAttributeValue_true_within_bounds a lo d lo hi hmin hmax hemin hemax hmof
        (fun ht => (hint ht).1) le_rfl hle
    · exact validateAttributeValue_true_within_bounds a hi d lo hi hmin hmax hemin hemax hmof
        (fun ht => (hint ht).2) hle le_rfl
  · intro a d lo hmin
    exact validateAttributeValue_false_below_min a (lo - 1) d lo hmin (by linarith)
  · intro a d lo hemin
    exact validateAttributeValue_false_at_exclusiveMin a d lo hemin
  · intro a d hi hemax
    exact validateAttributeValue_false_at_exclusiveMax a d hi hemax

/-- C7 counterexample: a schema-valid attribute with `minimum 0 ≤ maximum 10`
but also `multipleOf 3` rejects its own maximum, refuting the claim's
unconditional "accepts the value maximum" (the claim's clauses are mutually
inconsistent as stated: an exclusive bound equal to a bound likewise rejects
it). -/
theorem C7_counterexample_step_rejects_maximum :
    attributeConfigValid attrMul3 = true ∧
    attrMul3.schema.minimum = some 0 ∧
    attrMul3.schema.maximum = some (NumMax.num 10) ∧
    ((0 : ℚ) ≤ 10) ∧
    validateAttributeValue attrMul3 10 none = false := by
  refine ⟨by decide, by decide, by decide, by norm_num, by decide⟩

/-- C7 witness: the amended bounds clause applied to the concrete integer
schema 1..4, together with the minimum−1 clause at `lo = 1`. -/
theorem C7_witness_bounds :
    validateAttributeValue attrMinMax 1 none = true ∧
    validateAttributeValue attrMinMax 4 none = true ∧
    validateAttributeValue attrMinMax 0 none = false := by
  refine ⟨(C7_bounds_and_step.1 attrMinMax none 1 4 rfl rfl rfl rfl rfl
      (fun _ => by decide) (by decide)).1,
    (C7_bounds_and_step.1 attrMinMax none 1 4 rfl rfl rfl rfl rfl
      (fun _ => by decide) (by decide)).2, ?_⟩
  have h := C7_bounds_and_step.2.1 attrMinMax none 1 rfl
  norm_num at h
  exact h

/-! ## C8: load caching and reset -/

/-- C8: the manager's `loadAllConfigs` is idempotent and memoizing: a call
while a load is in flight returns the same pending promise and changes
nothing; with a cached config it returns that config without starting a
load; after a successful completion the next call returns the cached config;
after `reset()` the next call starts a fresh load; and after a failed
completion (nothing cached) the next call starts a fresh load. -/
theorem C8_loadAllConfigs_memoization :
    (∀ (s : ManagerState) (fresh pid : ℕ), s.loadPromise = some pid →
      loadAllConfigsCall s fresh = (LoadCallOutcome.awaitExisting pid, s)) ∧
    (∀ (s : ManagerState) (fresh : ℕ) (cfg : AppConfig),
      s.loadPromise = none → s.config = some cfg →
      loadAllConfigsCall s fresh = (LoadCallOutcome.cachedSuccess cfg, s)) ∧
    (∀ (s : ManagerState) (cfg : AppConfig) (fresh : ℕ),
      loadAllConfigsCall (loadCompletes s (ConfigLoadResult.success cfg)) fresh =
        (LoadCallOutcome.cachedSuccess cfg, loadCompletes s (ConfigLoadResult.success cfg))) ∧
    (∀ fresh : ℕ, loadAllConfigsCall resetManager fresh =
      (LoadCallOutcome.startedLoad fresh, ManagerState.mk none (some fresh) [])) ∧
    (∀ (s : ManagerState) (errs : List ConfigValidationError) (fresh : ℕ), s.config = none →
      loadAllConfigsCall (loadCompletes s (ConfigLoadResult.failure errs)) fresh =
        (LoadCallOutcome.startedLoad fresh, ManagerState.mk none (some fresh) errs)) := by
  refine ⟨?_, ?_, ?_, ?_, ?_⟩
  · intro s fresh pid h
    simp [loadAllConfigsCall, h]
  · intro s fresh cfg h hc
    simp [loadAllConfigsCall, h, hc]
  · intro s cfg fresh
    simp [loadAllConfigsCall, loadCompletes]
  · intro fresh
    simp [loadAllConfigsCall, resetManager]
  · intro s errs fresh hc
    simp [loadAllConfigsCall, loadCompletes, hc]

/-- C8 witness: a failed initial load caches nothing and the next call starts
a fresh load. -/
theorem C8_witness_fresh_after_failure :
    loadAllConfigsCall (loadCompletes initialManagerState (ConfigLoadResult.failure [])) 1 =
      (LoadCallOutcome.startedLoad 1, ManagerState.mk none (some 1) []) :=
  C8_loadAllConfigs_memoization.2.2.2.2 initialManagerState [] 1 rfl

/-! ## C4: category synchronization -/

/-- `syncAttributesWithConfig` as a plain map over the configuration. -/
theorem syncAttributesWithConfig_eq_map (cur : List (String × ℚ)) (cfg : AttributesConfig)
    (h : (cfg.attributes.map AttributeConfig.id).Nodup) :
    syncAttributesWithConfig cur cfg = cfg.attributes.map fun a =>
      (a.id, (alookup cur a.id).getD (a.schema.default.getD 0)) := by
  unfold syncAttributesWithConfig
  simpa using foldl_objSet_eq_map (fun a => a.id)
    (fun a => (alookup cur a.id).getD (a.schema.default.getD 0)) cfg.attributes [] h
    (by intro a _; rfl)

/-- The paired-or-single fold of `syncCombatStatsWithConfig` equals the fold
over the flattened member list. -/
theorem syncCombatStats_foldl_flatten (cur : List (String × ℚ))
    (stats : List CombatStatOrPair) (acc : List (String × ℚ)) :
    stats.foldl (fun syncedStats statOrPair =>
      match statOrPair with
      | CombatStatOrPair.pair firstStat secondStat =>
        objSet
          (objSet syncedStats firstStat.id
            ((alookup cur firstStat.id).getD (firstStat.schema.default.getD 0)))
          secondStat.id
          ((alookup cur secondStat.id).getD (secondStat.schema.default.getD 0))
      | CombatStatOrPair.single stat =>
        objSet syncedStats stat.id
          ((alookup cur stat.id).getD (stat.schema.default.getD 0))) acc =
    (stats.flatMap statFlat).foldl (fun m st =>
      objSet m st.id ((alookup cur st.id).getD (st.schema.default.getD 0))) acc := by
  induction stats generalizing acc with
  | nil => rfl
  | cons hd tl ih =>
    cases hd with
    | single st => simp only [List.foldl_cons, List.flatMap_cons, statFlat,
        List.foldl_append, List.foldl_nil, List.singleton_append, ih]
    | pair f s => simp only [List.foldl_cons, List.flatMap_cons, statFlat,
        List.foldl_append, List.foldl_nil, List.cons_append, List.singleton_append, ih]

/-- `syncCombatStatsWithConfig` as a plain map over the flattened stats. -/
theorem syncCombatStatsWithConfig_eq_map (cur : List (String × ℚ)) (cfg : CombatStatsConfig)
    (h : ((cfg.stats.flatMap statFlat).map CombatStatConfig.id).Nodup) :
    syncCombatStatsWithConfig cur cfg = (cfg.stats.flatMap statFlat).map fun st =>
      (st.id, (alookup cur st.id).getD (st.schema.default.getD 0)) := by
  unfold syncCombatStatsWithConfig
  rw [syncCombatStats_foldl_flatten]
  simpa using foldl_objSet_eq_map (fun st : CombatStatConfig => st.id)
    (fun st => (alookup cur st.id).getD (st.schema.default.getD 0))
    (cfg.stats.flatMap statFlat) [] h (by intro a _; rfl)

/-- `syncCharacterInfoWithConfig` as a plain map over the configuration. -/
theorem syncCharacterInfoWithConfig_eq_map (cur : List (String × String))
    (cfg : CharacterInfoConfig) (ged : String → String)
    (h : (cfg.fields.map fieldId).Nodup) :
    syncCharacterInfoWithConfig cur cfg ged = cfg.fields.map fun f =>
      (fieldId f,
        if jsTruthyStr (alookup cur (fieldId f)) then (alookup cur (fieldId f)).getD ""
        else
          match f with
          | FieldConfig.enum _ _ _ _ _ enumId _ => ged enumId
          | FieldConfig.text _ _ _ _ _ _ => "") := by
  unfold syncCharacterInfoWithConfig
  simpa using foldl_objSet_eq_map fieldId
    (fun f => if jsTruthyStr (alookup cur (fieldId f)) then (alookup cur (fieldId f)).getD ""
      else
        match f with
        | FieldConfig.enum _ _ _ _ _ enumId _ => ged enumId
        | FieldConfig.text _ _ _ _ _ _ => "") cfg.fields [] h (by intro a _; rfl)

/-- C4 (amended): each category sync builds a fresh map keyed exactly by the
configuration (stale record keys are dropped, missing keys are added).  For
attributes and combat stats (pairs contributing both members) the value is
the record's value when the key is present, else the schema default or 0 —
as the claim states.  For character info the source deviates from the claim:
an existing value is copied only when **truthy** (a stored empty string is
replaced), and the fallback is `""` for text fields (the configured
`defaultValue` is ignored) and the supplied enum-default lookup for enum
fields. -/
theorem C4_sync_reconciliation :
    (∀ (cur : List (String × ℚ)) (cfg : AttributesConfig),
      (cfg.attributes.map AttributeConfig.id).Nodup →
      syncAttributesWithConfig cur cfg = cfg.attributes.map fun a =>
        (a.id, (alookup cur a.id).getD (a.schema.default.getD 0))) ∧
    (∀ (cur : List (String × ℚ)) (cfg : CombatStatsConfig),
      ((cfg.stats.flatMap statFlat).map CombatStatConfig.id).Nodup →
      syncCombatStatsWithConfig cur cfg = (cfg.stats.flatMap statFlat).map fun st =>
        (st.id, (alookup cur st.id).getD (st.schema.default.getD 0))) ∧
    (∀ (cur : List (String × String)) (cfg : CharacterInfoConfig) (ged : String → String),
      (cfg.fields.map fieldId).Nodup →
      syncCharacterInfoWithConfig cur cfg ged = cfg.fields.map fun f =>
        (fieldId f,
          if jsTruthyStr (alookup cur (fieldId f)) then (alookup cur (fieldId f)).getD ""
          else
            match f with
            | FieldConfig.enum _ _ _ _ _ enumId _ => ged enumId
            | FieldConfig.text _ _ _ _ _ _ => "")) ∧
    (∀ (cur : List (String × ℚ)) (cfg : AttributesConfig) (k : String),
      (cfg.attributes.map AttributeConfig.id).Nodup →
      ((alookup (syncAttributesWithConfig cur cfg) k).isSome = true ↔
        k ∈ cfg.attributes.map AttributeConfig.id)) := by
  refine ⟨syncAttributesWithConfig_eq_map, syncCombatStatsWithConfig_eq_map,
    syncCharacterInfoWithConfig_eq_map, ?_⟩
  intro cur cfg k h
  rw [syncAttributesWithConfig_eq_map cur cfg h]
  constructor
  · intro hs
    by_contra hk
    rw [alookup_map_eq_none (fun a => a.id) _ cfg.attributes k hk] at hs
    cases hs
  · intro hk
    obtain ⟨a, ha, rfl⟩ := List.mem_map.mp hk
    rw [alookup_map_of_mem (fun a => a.id) _ cfg.attributes a ha h]
    rfl

/-- C4 counterexample: with a text field `name` whose configured default is
`"Bob"` and an enum field `race` stored as the empty string, the claim
predicts `{name: "Bob", race: ""}` but the code produces `{name: "", race:
getEnumDefaultValue("species")}` — text defaults are ignored and a falsy
stored value is overwritten. -/
theorem C4_counterexample_info_defaults :
    syncCharacterInfoWithConfig [("race", "")] ciNameRace (fun _ => "Human") =
      [("name", ""), ("race", "Human")] ∧
    claimC4InfoSync [("race", "")] ciNameRace (fun _ => "Human") =
      [("name", "Bob"), ("race", "")] ∧
    syncCharacterInfoWithConfig [("race", "")] ciNameRace (fun _ => "Human") ≠
      claimC4InfoSync [("race", "")] ciNameRace (fun _ => "Human") := by decide

/-- C4 witness: a config-added attribute with default 7 appears with value 7,
and the record's stale key `old` is dropped. -/
theorem C4_witness_default_added_and_stale_dropped :
    syncAttributesWithConfig [("old", 1)] attrsDefault7 = [("str", 7)] :=
  (C4_sync_reconciliation.1 [("old", 1)] attrsDefault7 (by decide)).trans (by decide)

/-! ## C5: inventory slot synchronization -/

/-- One tab's adjustment for a natural slot count below the array-length cap:
keep the first `min n length` entries and pad the tail with the default. -/
theorem syncTabSlots_nat (cur : List String) (n : ℕ) (dv : String)
    (hlt : (n : ℤ) < 2 ^ 32) :
    syncTabSlots cur (JSNum.num n) dv =
      some (cur.take n ++ List.replicate (n - cur.length) dv) := by
  simp only [syncTabSlots]
  by_cases h1 : (cur.length : ℤ) = (n : ℤ)
  · have hn : (n : ℕ) = cur.length := by exact_mod_cast h1.symm
    rw [if_pos h1, hn, List.take_length, Nat.sub_self, List.replicate_zero, List.append_nil]
  · rw [if_neg h1]
    by_cases h2 : (cur.length : ℤ) < (n : ℤ)
    · have hlen : cur.length < n := by exact_mod_cast h2
      rw [if_pos h2, if_pos ⟨by omega, by omega⟩]
      have htoNat : ((n : ℤ) - (cur.length : ℤ)).toNat = n - cur.length := by omega
      rw [htoNat, List.take_of_length_le (Nat.le_of_lt hlen)]
    · have hlen : n < cur.length := by omega
      rw [if_neg h2]
      have htoNat : ((n : ℤ)).toNat = n := Int.toNat_natCast n
      rw [htoNat, Nat.sub_eq_zero_of_le (Nat.le_of_lt hlen), List.replicate_zero,
        List.append_nil]

/-- The tab loop builds the map of adjusted slot arrays when every formula
evaluates to a valid slot count. -/
theorem syncInventoryGo_eq (cur : List (String × List String))
    (attrs : List (String × ℤ)) (ged : String → String)
    (tabs : List InventoryTabConfig) (acc : List (String × List String))
    (hnodup : (tabs.map InventoryTabConfig.id).Nodup)
    (hfresh : ∀ t ∈ tabs, alookup acc t.id = none)
    (hfin : ∀ t ∈ tabs, ∃ n : ℕ, (n : ℤ) < 2 ^ 32 ∧
      evaluateFormula t.slotFormula attrs = JSNum.num n) :
    syncInventoryGo cur attrs ged tabs acc =
      some (acc ++ tabs.map fun t =>
        (t.id, ((alookup cur t.id).getD []).take (slotCountOf t attrs) ++
          List.replicate (slotCountOf t attrs - ((alookup cur t.id).getD []).length)
            (ged t.itemEnumId))) := by
  induction tabs generalizing acc with
  | nil => simp [syncInventoryGo]
  | cons hd tl ih =>
    obtain ⟨n, hlt, heval⟩ := hfin hd (List.mem_cons_self hd tl)
    have hslot : slotCountOf hd attrs = n := by
      simp [slotCountOf, heval, jsNatValue, Int.toNat_natCast]
    simp only [List.map_cons, List.nodup_cons] at hnodup
    have hset : objSet acc hd.id
        (((alookup cur hd.id).getD []).take n ++
          List.replicate (n - ((alookup cur hd.id).getD []).length) (ged hd.itemEnumId)) =
        acc ++ [(hd.id,
          ((alookup cur hd.id).getD []).take n ++
            List.replicate (n - ((alookup cur hd.id).getD []).length) (ged hd.itemEnumId))] :=
      objSet_eq_append _ _ _ (hfresh hd (List.mem_cons_self hd tl))
    have hfresh' : ∀ (x : List String), ∀ t ∈ tl, alookup (acc ++ [(hd.id, x)]) t.id = none := by
      intro x t ht
      rw [alookup_append, hfresh t (List.mem_cons_of_mem hd ht)]
      have hne : hd.id ≠ t.id := by
        intro hEq
        exact hnodup.1 (hEq ▸ List.mem_map_of_mem InventoryTabConfig.id ht)
      simp [alookup, hne, Option.or]
    rw [show syncInventoryGo cur attrs ged (hd :: tl) acc =
        (match syncTabSlots ((alookup cur hd.id).getD [])
            (evaluateFormula hd.slotFormula attrs) (ged hd.itemEnumId) with
         | none => none
         | some newTabSlots => syncInventoryGo cur attrs ged tl (objSet acc hd.id newTabSlots))
      from rfl]
    simp only [heval, syncTabSlots_nat _ n _ hlt]
    simp only [hslot, hset]
    rw [ih _ hnodup.2 (hfresh' _)
      (fun t ht => hfin t (List.mem_cons_of_mem hd ht))]
    simp [hslot]

/-- C5 (amended): when every tab's formula evaluates to a finite slot count
(a natural number below the 2³² array-length cap), the sync returns a map
keyed exactly by the configuration's tab IDs in order, where each tab's
array keeps its lowest-indexed existing entries up to the computed count and
is padded at the end with the supplied enum-default value when it was
shorter.  (Without the finiteness proviso the claim fails: a formula whose
evaluation divides by zero yields `Infinity`, and `Array(Infinity - length)`
throws a RangeError that escapes — see the counterexample.) -/
theorem C5_syncInventorySlots :
    ∀ (currentSlots : List (String × List String)) (config : InventoryConfig)
      (attributes : List (String × ℤ)) (getEnumDefaultValue : String → String),
      (config.tabs.map InventoryTabConfig.id).Nodup →
      (∀ tab ∈ config.tabs, ∃ n : ℕ, (n : ℤ) < 2 ^ 32 ∧
        evaluateFormula tab.slotFormula attributes = JSNum.num n) →
      syncInventorySlotsWithConfig currentSlots config attributes getEnumDefaultValue =
        some (config.tabs.map fun tab =>
          (tab.id,
            ((alookup currentSlots tab.id).getD []).take (slotCountOf tab attributes) ++
              List.replicate
                (slotCountOf tab attributes -
                  ((alookup currentSlots tab.id).getD []).length)
                (getEnumDefaultValue tab.itemEnumId))) := by
  intro currentSlots config attributes ged hnodup hfin
  unfold syncInventorySlotsWithConfig
  rw [syncInventoryGo_eq currentSlots attributes ged config.tabs [] hnodup
    (by intro t _; rfl) hfin]
  simp

/-- C5 counterexample: a tab whose slot formula is `1/0` evaluates to
`Infinity`; the sync then throws (RangeError from `Array(Infinity)`) instead
of returning a map, refuting the claim's unconditional "returns a map ...
whose length equals the formula evaluator's result". -/
theorem C5_counterexample_infinite_count_throws :
    evaluateFormula "1/0" [] = JSNum.posInf ∧
    syncInventorySlotsWithConfig [] invDiv0 [] (fun _ => "") = none := by decide

/-- C5 witness: shrinking a 5-entry tab to a computed count of 2 keeps the
first two entries unchanged, via the amended theorem at a concrete input. -/
theorem C5_witness_truncate_5_to_2 :
    syncInventorySlotsWithConfig [("bag", ["a", "b", "c", "d", "e"])] invTwoSlots []
      (fun _ => "") = some [("bag", ["a", "b"])] :=
  (C5_syncInventorySlots [("bag", ["a", "b", "c", "d", "e"])] invTwoSlots []
      (fun _ => "") (by decide)
      (by
        intro tab htab
        refine ⟨2, by decide, ?_⟩
        have : tab = InventoryTabConfig.mk "bag" "Bag" "" "" "species" "2" none := by
          simpa [invTwoSlots] using htab
        rw [this]
        decide)).trans (by decide)

/-! ## C2 and C3: the load procedure -/

/-- The uniqueness scan reports nothing exactly when the scanned keys are
distinct (and none was already claimed). -/
theorem uniqScan_eq_nil_iff (entries idMap : List (Option String × IdLocation)) :
    uniqScan entries idMap = [] ↔
      ((entries.map Prod.fst).Nodup ∧ ∀ p ∈ entries, alookup idMap p.1 = none) := by
  induction entries generalizing idMap with
  | nil => simp [uniqScan]
  | cons hd tl ih =>
    obtain ⟨key, loc⟩ := hd
    simp only [uniqScan]
    cases hmap : alookup idMap key with
    | some existing =>
      constructor
      · intro h; cases h
      · rintro ⟨_, hall⟩
        have := hall (key, loc) (List.mem_cons_self _ _)
        rw [hmap] at this; cases this
    | none =>
      rw [ih]
      constructor
      · rintro ⟨hnd, hall⟩
        refine ⟨?_, ?_⟩
        · simp only [List.map_cons, List.nodup_cons]
          refine ⟨?_, hnd⟩
          intro hmem
          obtain ⟨p, hp, hpk⟩ := List.mem_map.mp hmem
          have hp' := hall p hp
          rw [hpk, alookup_append, hmap] at hp'
          simp [alookup] at hp'
        · intro p hp
          rcases List.mem_cons.mp hp with h | h
          · rw [h]; exact hmap
          · have hp' := hall p h
            rw [alookup_append] at hp'
            cases hax : alookup idMap p.1 with
            | none => rfl
            | some x => rw [hax] at hp'; simp [Option.or] at hp'
      · rintro ⟨hnd, hall⟩
        simp only [List.map_cons, List.nodup_cons] at hnd
        refine ⟨hnd.2, ?_⟩
        intro p hp
        rw [alookup_append, hall p (List.mem_cons_of_mem _ hp)]
        have hne : key ≠ p.1 := by
          intro hEq
          exact hnd.1 (hEq ▸ List.mem_map_of_mem Prod.fst hp)
        simp [alookup, hne, Option.or]

/-- Mapping an indexed traversal down to the underlying list. -/
theorem enum_map_snd_comp {α β : Type} (l : List α) (f : α → β) :
    (l.enum.map fun p => f p.2) = l.map f := by
  conv_rhs => rw [← List.enum_map_snd l]
  rw [List.map_map]
  rfl

/-- The keys the scan visits are exactly the collected keys, in order. -/
theorem uniqEntries_keys (attributes : AttributesConfig) (enums : EnumsConfig)
    (characterInfo : CharacterInfoConfig) (combatStats : CombatStatsConfig)
    (inventory : InventoryConfig) :
    (uniqEntries attributes enums characterInfo combatStats inventory).map Prod.fst =
      collectedUniqKeys attributes enums characterInfo combatStats inventory := by
  unfold uniqEntries collectedUniqKeys
  simp only [List.map_append, List.map_map, Function.comp_def]
  rw [enum_map_snd_comp enums.enums (fun e => some e.id),
    enum_map_snd_comp attributes.attributes (fun a => some a.id),
    enum_map_snd_comp characterInfo.fields (fun f => some (fieldId f)),
    enum_map_snd_comp combatStats.stats statIdJS,
    enum_map_snd_comp inventory.tabs (fun t => some t.id)]

/-- `validateGlobalIdUniqueness` reports nothing iff its scanned keys are
distinct. -/
theorem validateGlobalIdUniqueness_eq_nil_iff (attributes : AttributesConfig)
    (enums : EnumsConfig) (characterInfo : CharacterInfoConfig)
    (combatStats : CombatStatsConfig) (inventory : InventoryConfig) :
    validateGlobalIdUniqueness attributes enums characterInfo combatStats inventory = [] ↔
      globalIdsDistinct attributes enums characterInfo combatStats inventory := by
  unfold validateGlobalIdUniqueness globalIdsDistinct
  rw [uniqScan_eq_nil_iff, uniqEntries_keys]
  simp

/-- `validateEnumReferences` reports nothing iff all field enum references
resolve. -/
theorem validateEnumReferences_eq_nil_iff (characterInfo : CharacterInfoConfig)
    (enums : EnumsConfig) :
    validateEnumReferences characterInfo enums = [] ↔
      enumRefsResolve characterInfo enums = true := by
  unfold validateEnumReferences enumRefsResolve
  rw [List.filterMap_eq_nil_iff, List.all_eq_true]
  constructor
  · intro h f hf
    have hfe := h f hf
    cases heid : fieldEnumId f with
    | none => simp [heid]
    | some eid =>
      rw [heid] at hfe
      by_cases hmem : eid ∈ enumIds enums
      · simp [heid, hmem]
      · simp [hmem] at hfe
  · intro h f hf
    have hfe := h f hf
    cases heid : fieldEnumId f with
    | none => simp [heid]
    | some eid =>
      rw [heid] at hfe
      have hmem : eid ∈ enumIds enums := by simpa using hfe
      simp [heid, hmem]

/-- The inventory reference loop reports nothing iff all tab references
resolve (whatever the running index). -/
theorem validateInventoryGo_eq_nil_iff (enums : EnumsConfig) (index : ℕ)
    (tabs : List InventoryTabConfig) :
    validateInventoryGo enums index tabs = [] ↔
      ∀ tab ∈ tabs, tab.itemEnumId ∈ enumIds enums := by
  induction tabs generalizing index with
  | nil => simp [validateInventoryGo]
  | cons hd tl ih =>
    by_cases hmem : hd.itemEnumId ∈ enumIds enums
    · simp [validateInventoryGo, hmem, ih (index + 1)]
    · simp [validateInventoryGo, hmem]

theorem validateInventoryEnumReferences_eq_nil_iff (inventory : InventoryConfig)
    (enums : EnumsConfig) :
    validateInventoryEnumReferences inventory enums = [] ↔
      inventoryRefsResolve inventory enums :=
  validateInventoryGo_eq_nil_iff enums 0 inventory.tabs

theorem validateLevelClassEnumReferences_eq_nil_iff (levelClass : LevelClassConfig)
    (enums : EnumsConfig) :
    validateLevelClassEnumReferences levelClass enums = [] ↔
      levelClassRefResolves levelClass enums := by
  unfold validateLevelClassEnumReferences levelClassRefResolves
  by_cases h : levelClass.classEnumId ∈ enumIds enums <;> simp [h]

/-- The load result is either the failure carrying exactly the accumulated
phase errors, or a success with no phase errors. -/
theorem loadAllConfigsPure_cases
    (rA : Except (List ConfigValidationError) AttributesConfig)
    (rE : Except (List ConfigValidationError) EnumsConfig)
    (rCI : Except (List ConfigValidationError) CharacterInfoConfig)
    (rCS : Except (List ConfigValidationError) CombatStatsConfig)
    (rI : Except (List ConfigValidationError) InventoryConfig)
    (rL : Except (List ConfigValidationError) LevelClassConfig) :
    loadAllConfigsPure rA rE rCI rCS rI rL =
        ConfigLoadResult.failure (allPhaseErrors rA rE rCI rCS rI rL) ∨
      ((loadAllConfigsPure rA rE rCI rCS rI rL).isSuccess = true ∧
        allPhaseErrors rA rE rCI rCS rI rL = []) := by
  cases rA <;> cases rE <;> cases rCI <;> cases rCS <;> cases rI <;> cases rL <;>
      simp only [loadAllConfigsPure, docOk, ConfigLoadResult.isSuccess] <;>
    first
      | exact Or.inl rfl
      | (split
         case isTrue h => exact Or.inr ⟨rfl, h⟩
         case isFalse h => exact Or.inl rfl)
      | simp

/-- Success is equivalent to all six documents loading with no phase error. -/
theorem loadAllConfigsPure_success_iff
    (rA : Except (List ConfigValidationError) AttributesConfig)
    (rE : Except (List ConfigValidationError) EnumsConfig)
    (rCI : Except (List ConfigValidationError) CharacterInfoConfig)
    (rCS : Except (List ConfigValidationError) CombatStatsConfig)
    (rI : Except (List ConfigValidationError) InventoryConfig)
    (rL : Except (List ConfigValidationError) LevelClassConfig) :
    (loadAllConfigsPure rA rE rCI rCS rI rL).isSuccess = true ↔
      ((∃ a, rA = Except.ok a) ∧ (∃ e, rE = Except.ok e) ∧ (∃ ci, rCI = Except.ok ci) ∧
        (∃ cs, rCS = Except.ok cs) ∧ (∃ inv, rI = Except.ok inv) ∧
        (∃ lc, rL = Except.ok lc) ∧ allPhaseErrors rA rE rCI rCS rI rL = []) := by
  cases rA <;> cases rE <;> cases rCI <;> cases rCS <;> cases rI <;> cases rL <;>
      simp only [loadAllConfigsPure, docOk, ConfigLoadResult.isSuccess] <;>
    first
      | (split_ifs with hc <;> simp_all)
      | simp

/-- C2: the load succeeds iff all six documents individually validate, every
enum reference (character-info fields, inventory tabs, level/class) resolves
to a loaded enumeration ID, and the global uniqueness check finds no
collision among the keys it scans; every error any phase produced — a
document's own validation errors (collected independently of the other
documents) and the conditional cross-reference and uniqueness errors —
appears in the returned failure; and a failed load caches no configuration. -/
theorem C2_success_iff_all_validated :
    (∀ (rA : Except (List ConfigValidationError) AttributesConfig)
      (rE : Except (List ConfigValidationError) EnumsConfig)
      (rCI : Except (List ConfigValidationError) CharacterInfoConfig)
      (rCS : Except (List ConfigValidationError) CombatStatsConfig)
      (rI : Except (List ConfigValidationError) InventoryConfig)
      (rL : Except (List ConfigValidationError) LevelClassConfig),
      (loadAllConfigsPure rA rE rCI rCS rI rL).isSuccess = true ↔
        (∃ (a : AttributesConfig) (e : EnumsConfig) (ci : CharacterInfoConfig)
          (cs : CombatStatsConfig) (inv : InventoryConfig) (lc : LevelClassConfig),
          rA = Except.ok a ∧ rE = Except.ok e ∧ rCI = Except.ok ci ∧
          rCS = Except.ok cs ∧ rI = Except.ok inv ∧ rL = Except.ok lc ∧
          enumRefsResolve ci e = true ∧ inventoryRefsResolve inv e ∧
          levelClassRefResolves lc e ∧ globalIdsDistinct a e ci cs inv)) ∧
    (∀ rA rE rCI rCS rI rL (x : ConfigValidationError),
      x ∈ allPhaseErrors rA rE rCI rCS rI rL →
      ∃ errs, loadAllConfigsPure rA rE rCI rCS rI rL = ConfigLoadResult.failure errs ∧
        x ∈ errs) ∧
    (∀ (s : ManagerState) (errs : List ConfigValidationError), s.config = none →
      (loadCompletes s (ConfigLoadResult.failure errs)).config = none) := by
  refine ⟨?_, ?_, ?_⟩
  · intro rA rE rCI rCS rI rL
    rw [loadAllConfigsPure_success_iff]
    constructor
    · rintro ⟨⟨a, rfl⟩, ⟨e, rfl⟩, ⟨ci, rfl⟩, ⟨cs, rfl⟩, ⟨inv, rfl⟩, ⟨lc, rfl⟩, hempty⟩
      have hphases : allPhaseErrors (Except.ok a) (Except.ok e) (Except.ok ci)
          (Except.ok cs) (Except.ok inv) (Except.ok lc) =
          validateEnumReferences ci e ++ validateInventoryEnumReferences inv e ++
            validateLevelClassEnumReferences lc e ++
            validateGlobalIdUniqueness a e ci cs inv := rfl
      rw [hphases] at hempty
      have hsplit := List.append_eq_nil.mp hempty
      have hsplit2 := List.append_eq_nil.mp hsplit.1
      have hsplit3 := List.append_eq_nil.mp hsplit2.1
      exact ⟨a, e, ci, cs, inv, lc, rfl, rfl, rfl, rfl, rfl, rfl,
        (validateEnumReferences_eq_nil_iff ci e).mp hsplit3.1,
        (validateInventoryEnumReferences_eq_nil_iff inv e).mp hsplit3.2,
        (validateLevelClassEnumReferences_eq_nil_iff lc e).mp hsplit2.2,
        (validateGlobalIdUniqueness_eq_nil_iff a e ci cs inv).mp hsplit.2⟩
    · rintro ⟨a, e, ci, cs, inv, lc, rfl, rfl, rfl, rfl, rfl, rfl, h1, h2, h3, h4⟩
      refine ⟨⟨a, rfl⟩, ⟨e, rfl⟩, ⟨ci, rfl⟩, ⟨cs, rfl⟩, ⟨inv, rfl⟩, ⟨lc, rfl⟩, ?_⟩
      have hphases : allPhaseErrors (Except.ok a) (Except.ok e) (Except.ok ci)
          (Except.ok cs) (Except.ok inv) (Except.ok lc) =
          validateEnumReferences ci e ++ validateInventoryEnumReferences inv e ++
            validateLevelClassEnumReferences lc e ++
            validateGlobalIdUniqueness a e ci cs inv := rfl
      rw [hphases, (validateEnumReferences_eq_nil_iff ci e).mpr h1,
        (validateInventoryEnumReferences_eq_nil_iff inv e).mpr h2,
        (validateLevelClassEnumReferences_eq_nil_iff lc e).mpr h3,
        (validateGlobalIdUniqueness_eq_nil_iff a e ci cs inv).mpr h4]
      rfl
  · intro rA rE rCI rCS rI rL x hx
    rcases loadAllConfigsPure_cases rA rE rCI rCS rI rL with h | ⟨_, hempty⟩
    · exact ⟨allPhaseErrors rA rE rCI rCS rI rL, h, hx⟩
    · rw [hempty] at hx
      cases hx
  · intro s errs h
    simp [loadCompletes, h]

/-- C2 witness: six concrete validated documents with resolving references
and distinct IDs load successfully, via the equivalence. -/
theorem C2_witness_successful_load :
    (loadAllConfigsPure (Except.ok attrsStr) (Except.ok enumsSpecies) (Except.ok ciBio)
      (Except.ok csSingle) (Except.ok invBagSpecies)
      (Except.ok lcSpecies)).isSuccess = true :=
  (C2_success_iff_all_validated.1 _ _ _ _ _ _).mpr
    ⟨attrsStr, enumsSpecies, ciBio, csSingle, invBagSpecies, lcSpecies,
      rfl, rfl, rfl, rfl, rfl, rfl, by decide,
      by unfold inventoryRefsResolve enumIds; decide,
      by unfold levelClassRefResolves enumIds; decide,
      by unfold globalIdsDistinct collectedUniqKeys; decide⟩

/-- C3 (amended): the global uniqueness check runs only when **all five**
ID-bearing documents (attributes, enums, characterInfo, combatStats,
inventory) validated — not across every successfully loaded subset.  When
all five loaded, every collision error it reports is in the result (a
level/class failure does not prevent the check); but if **any** of the five
failed, the check is skipped entirely and the failure carries only the
per-document and cross-reference errors, even when two loaded documents
collide. -/
theorem C3_uniqueness_needs_all_five :
    (∀ (rA : Except (List ConfigValidationError) AttributesConfig)
      (rE : Except (List ConfigValidationError) EnumsConfig)
      (rCI : Except (List ConfigValidationError) CharacterInfoConfig)
      (rCS : Except (List ConfigValidationError) CombatStatsConfig)
      (rI : Except (List ConfigValidationError) InventoryConfig)
      (rL : Except (List ConfigValidationError) LevelClassConfig)
      (a : AttributesConfig) (e : EnumsConfig) (ci : CharacterInfoConfig)
      (cs : CombatStatsConfig) (inv : InventoryConfig),
      rA = Except.ok a → rE = Except.ok e → rCI = Except.ok ci → rCS = Except.ok cs →
      rI = Except.ok inv →
      validateGlobalIdUniqueness a e ci cs inv ⊆
        resultErrors (loadAllConfigsPure rA rE rCI rCS rI rL) ∨
      ((loadAllConfigsPure rA rE rCI rCS rI rL).isSuccess = true ∧
        validateGlobalIdUniqueness a e ci cs inv = [])) ∧
    (∀ rA rE rCI rCS rI rL,
      (docOk rA = none ∨ docOk rE = none ∨ docOk rCI = none ∨ docOk rCS = none ∨
        docOk rI = none) →
      resultErrors (loadAllConfigsPure rA rE rCI rCS rI rL) =
        docErrors rA ++ docErrors rE ++ docErrors rCI ++ docErrors rCS ++ docErrors rI ++
          docErrors rL ++ phaseEnumRefErrors rCI rE ++ phaseInventoryRefErrors rI rE ++
          phaseLevelClassRefErrors rL rE) := by
  constructor
  · rintro rA rE rCI rCS rI rL a e ci cs inv rfl rfl rfl rfl rfl
    rcases loadAllConfigsPure_cases (Except.ok a) (Except.ok e) (Except.ok ci)
        (Except.ok cs) (Except.ok inv) rL with h | ⟨hs, hempty⟩
    · left
      rw [h]
      intro x hx
      simp only [resultErrors, allPhaseErrors, phaseUniquenessErrors, docOk,
        List.mem_append]
      exact Or.inr hx
    · right
      refine ⟨hs, ?_⟩
      have hphases : allPhaseErrors (Except.ok a) (Except.ok e) (Except.ok ci)
          (Except.ok cs) (Except.ok inv) rL =
          docErrors rL ++ validateEnumReferences ci e ++
            validateInventoryEnumReferences inv e ++
            phaseLevelClassRefErrors rL (Except.ok e) ++
            validateGlobalIdUniqueness a e ci cs inv := rfl
      rw [hphases] at hempty
      exact (List.append_eq_nil.mp hempty).2
  · intro rA rE rCI rCS rI rL hnone
    have hfail : loadAllConfigsPure rA rE rCI rCS rI rL =
        ConfigLoadResult.failure (allPhaseErrors rA rE rCI rCS rI rL) := by
      rcases loadAllConfigsPure_cases rA rE rCI rCS rI rL with h | ⟨hs, _⟩
      · exact h
      · rw [loadAllConfigsPure_success_iff] at hs
        obtain ⟨⟨a, ha⟩, ⟨e, he⟩, ⟨ci, hci⟩, ⟨cs, hcs⟩, ⟨inv, hinv⟩, _, _⟩ := hs
        rcases hnone with h | h | h | h | h <;>
          simp_all [docOk]
    rw [hfail]
    have huniq : phaseUniquenessErrors rA rE rCI rCS rI = [] := by
      unfold phaseUniquenessErrors
      rcases hnone with h | h | h | h | h <;> rw [h] <;>
        cases docOk rA <;> cases docOk rE <;> cases docOk rCI <;> cases docOk rCS <;>
          cases docOk rI <;> rfl
    simp [resultErrors, allPhaseErrors, huniq]

/-- C3 counterexample: the attributes document fails to load while the enums
and inventory documents (both schema-valid) each define the ID `x`; the
claim says they are still checked against each other, but the result
carries only the attributes transport error — no collision is reported. -/
theorem C3_counterexample_no_cross_check :
    (enumsConfigValid enumsX && inventoryConfigValid invTabX &&
      characterInfoConfigValid ciBio && combatStatsConfigValid csSingle) = true ∧
    enumsX.enums.map EnumDefinition.id = ["x"] ∧
    invTabX.tabs.map InventoryTabConfig.id = ["x"] ∧
    loadAllConfigsPure (Except.error [attrLoadErr]) (Except.ok enumsX) (Except.ok ciBio)
        (Except.ok csSingle) (Except.ok invTabX) (Except.ok lcX) =
      ConfigLoadResult.failure [attrLoadErr] := by decide

/-- C3 witness: with the level/class document failed but all five ID-bearing
documents loaded, the uniqueness errors (here the `x` collision) are still
in the failure result. -/
theorem C3_witness_check_runs_despite_levelclass_failure :
    validateGlobalIdUniqueness attrsStr enumsX ciBio csSingle invTabX ⊆
      resultErrors (loadAllConfigsPure (Except.ok attrsStr) (Except.ok enumsX)
        (Except.ok ciBio) (Except.ok csSingle) (Except.ok invTabX)
        (Except.error [lcLoadErr])) ∨
    ((loadAllConfigsPure (Except.ok attrsStr) (Except.ok enumsX) (Except.ok ciBio)
        (Except.ok csSingle) (Except.ok invTabX)
        (Except.error [lcLoadErr])).isSuccess = true ∧
      validateGlobalIdUniqueness attrsStr enumsX ciBio csSingle invTabX = []) :=
  C3_uniqueness_needs_all_five.1 _ _ _ _ _ _ attrsStr enumsX ciBio csSingle invTabX
    rfl rfl rfl rfl rfl

end CC
